import Mathlib

/-!
# ArcBall: a shallow embedding of `script.js`

The script keeps its game state in module-level variables and mutates them from
four entry points: the animation callback `gameLoop`, the three launch handlers
(`keydown`, `click`, `touchstart`), `togglePause` and `resetGame`.

Here every entry point is a function on an explicit `State`.  JavaScript numbers
are read as elements of a linearly ordered field `α` (exact arithmetic, no
rounding): `ℚ` is used to evaluate the functions on concrete states and `ℝ` to
state facts that mention the real `π`, `cos` and `sin`.  The canvas size and the
three members of `Math` that the script reads are collected in `Env`.

`Math.PI`, `Math.cos` and `Math.sin` are doubles that only approximate `π`, `cos`
and `sin`.  Facts that are inequalities with a margin, or that depend only on
which branch is taken, are stated with the exact functions (`RealMath`).  Facts
about the stored launch velocity are stated for every cosine and sine within
`10⁻¹²` of the exact ones (`ApproxTrig`), and `dblEnv` holds the values a double
platform returns at the initial angle.

Drawing calls and writes to the DOM are not modelled: the script never reads
them back.  Each call `requestAnimationFrame(gameLoop)` is recorded by counting
the invocations of `gameLoop` that the host still has to run.
-/

namespace ArcBall

/-- What the script takes from its host: the canvas size (`canvas.width`,
`canvas.height`) and `Math.PI`, `Math.cos`, `Math.sin`. -/
structure Env (α : Type) where
  gameWidth : α
  gameHeight : α
  pi : α
  cos : α → α
  sin : α → α

/-- The game state variables declared at lines 15-24 of `script.js`. -/
structure Game (α : Type) where
  arrowAngle : α
  arrowDirection : α
  ballX : α
  ballY : α
  ballDX : α
  ballDY : α
  player1Score : Nat
  isGamePaused : Bool
  isGameOver : Bool
  gameLoopActive : Bool
deriving DecidableEq

/-- The game variables together with the number of `gameLoop` invocations that
were requested with `requestAnimationFrame` and have not run yet. -/
structure State (α : Type) extends Game α where
  pending : Nat
deriving DecidableEq

/-- The events that drive the script. `tick` is the host running `gameLoop`. -/
inductive Event where
  | tick
  | keydown (key : String)
  | click
  | touchstart
  | togglePause
  | resetGame
deriving DecidableEq

section Script

variable {α : Type} [LinearOrderedField α]

/-- The constant `ballSize = 15`. -/
def ballSize (α : Type) [LinearOrderedField α] : α := 15

/-- The constant `CONSTANT_ARROW_SPEED = 0.007`. -/
def CONSTANT_ARROW_SPEED (α : Type) [LinearOrderedField α] : α := 7 / 1000

/-- The constant `CONSTANT_BALL_SPEED = 3`. -/
def CONSTANT_BALL_SPEED (α : Type) [LinearOrderedField α] : α := 3

/-- The constant `goalWidth = 85`. -/
def goalWidth (α : Type) [LinearOrderedField α] : α := 85

/-- The constant `goalX = (gameWidth - goalWidth) / 2`. -/
def goalX (E : Env α) : α := (E.gameWidth - goalWidth α) / 2

/-- The values the state variables are declared with, and the request made by the
last line of the script. -/
def initial (E : Env α) : State α :=
  { arrowAngle := E.pi / 6
    arrowDirection := 1
    ballX := E.gameWidth / 2
    ballY := E.gameHeight - ballSize α
    ballDX := 0
    ballDY := 0
    player1Score := 0
    isGamePaused := false
    isGameOver := false
    gameLoopActive := true
    pending := 1 }

/-- A call `requestAnimationFrame(gameLoop)`: one more invocation is pending. -/
def requestAnimationFrame (s : State α) : State α :=
  { s with pending := s.pending + 1 }

/-- Function `updateArrow` (lines 74-79). -/
def updateArrow (E : Env α) (s : State α) : State α :=
  let s1 := { s with arrowAngle := s.arrowAngle + s.arrowDirection * CONSTANT_ARROW_SPEED α }
  if s1.arrowAngle > 16 * E.pi / 18 ∨ s1.arrowAngle < E.pi / 9 then
    { s1 with arrowDirection := s1.arrowDirection * -1 }
  else s1

/-- Function `resetBallPosition` (lines 108-116). -/
def resetBallPosition (E : Env α) (s : State α) : State α :=
  { s with
    ballX := E.gameWidth / 2
    ballY := E.gameHeight - ballSize α
    ballDX := 0
    ballDY := 0
    arrowAngle := E.pi / 6
    arrowDirection := 1 }

/-- Function `gameOver` (lines 119-125), without its writes to the page. -/
def gameOver (s : State α) : State α :=
  { s with isGameOver := true, gameLoopActive := false }

/-- Function `moveBall` (lines 82-105). -/
def moveBall (E : Env α) (s : State α) : State α :=
  let s1 := { s with ballX := s.ballX + s.ballDX }
  let s2 := { s1 with ballY := s1.ballY + s1.ballDY }
  let s3 :=
    if s2.ballX + ballSize α / 2 > E.gameWidth ∨ s2.ballX - ballSize α / 2 < 0 then
      { s2 with ballDX := -s2.ballDX }
    else s2
  if s3.ballY - ballSize α / 2 < 0 then
    let s4 :=
      if s3.ballX > goalX E ∧ s3.ballX < goalX E + goalWidth α then
        let s5 := { s3 with player1Score := s3.player1Score + 1 }
        if s5.player1Score ≥ 5 then gameOver s5 else s5
      else s3
    resetBallPosition E s4
  else if s3.ballY + ballSize α / 2 > E.gameHeight then
    resetBallPosition E s3
  else s3

/-- Function `gameLoop` (lines 128-142), without the drawing calls. -/
def gameLoop (E : Env α) (s : State α) : State α :=
  if (!s.isGamePaused && !s.isGameOver && s.gameLoopActive) = true then
    let s1 := if s.ballDX = 0 ∧ s.ballDY = 0 then updateArrow E s else moveBall E s
    requestAnimationFrame s1
  else s

/-- Function `resetGame` (lines 145-172), without the drawing calls. -/
def resetGame (E : Env α) (s : State α) : State α :=
  let s1 := { s with gameLoopActive := false }
  let s2 := { s1 with player1Score := 0 }
  let s3 := { s2 with isGameOver := false, isGamePaused := false }
  let s4 := resetBallPosition E s3
  requestAnimationFrame { s4 with gameLoopActive := true }

/-- Function `togglePause` (lines 175-180). -/
def togglePause (s : State α) : State α :=
  let s1 := { s with isGamePaused := !s.isGamePaused }
  if (!s1.isGamePaused) = true then requestAnimationFrame s1 else s1

/-- The `keydown` listener (lines 183-191). -/
def keydown (E : Env α) (key : String) (s : State α) : State α :=
  if key = "ArrowUp" then
    if s.ballDX = 0 ∧ s.ballDY = 0 then
      let s1 := { s with ballDX := CONSTANT_BALL_SPEED α * E.cos s.arrowAngle }
      let s2 := { s1 with ballDY := -CONSTANT_BALL_SPEED α * E.sin s1.arrowAngle }
      requestAnimationFrame s2
    else s
  else s

/-- The `click` listener of the canvas (lines 194-200). -/
def click (E : Env α) (s : State α) : State α :=
  if s.ballDX = 0 ∧ s.ballDY = 0 then
    let s1 := { s with ballDX := CONSTANT_BALL_SPEED α * E.cos s.arrowAngle }
    let s2 := { s1 with ballDY := -CONSTANT_BALL_SPEED α * E.sin s1.arrowAngle }
    requestAnimationFrame s2
  else s

/-- The `touchstart` listener of the canvas (lines 203-210). -/
def touchstart (E : Env α) (s : State α) : State α :=
  if s.ballDX = 0 ∧ s.ballDY = 0 then
    let s1 := { s with ballDX := CONSTANT_BALL_SPEED α * E.cos s.arrowAngle }
    let s2 := { s1 with ballDY := -CONSTANT_BALL_SPEED α * E.sin s1.arrowAngle }
    requestAnimationFrame s2
  else s

/-- The host runs one invocation of `gameLoop`, which uses up one pending
request if there is one. -/
def tick (E : Env α) (s : State α) : State α :=
  gameLoop E { s with pending := s.pending - 1 }

/-- One event applied to a state. -/
def step (E : Env α) (s : State α) : Event → State α
  | Event.tick => tick E s
  | Event.keydown key => keydown E key s
  | Event.click => click E s
  | Event.touchstart => touchstart E s
  | Event.togglePause => togglePause s
  | Event.resetGame => resetGame E s

/-- A sequence of events applied from left to right. -/
def run (E : Env α) (s : State α) (es : List Event) : State α :=
  es.foldl (step E) s

/-- The states the script can be in: the results of running a sequence of
events from the initial state. -/
def Reachable (E : Env α) (s : State α) : Prop :=
  ∃ es : List Event, run E (initial E) es = s

/-- The condition tested at the head of `gameLoop`. -/
def running (s : State α) : Prop :=
  s.isGamePaused = false ∧ s.isGameOver = false ∧ s.gameLoopActive = true

/-- The ball is idle: the condition tested by the launch handlers and `gameLoop`. -/
def idle (s : State α) : Prop :=
  s.ballDX = 0 ∧ s.ballDY = 0

end Script

/-- The environment reads `Math.PI`, `Math.cos` and `Math.sin` as the real
`π`, cosine and sine. -/
def RealMath (E : Env ℝ) : Prop :=
  E.pi = Real.pi ∧ E.cos = Real.cos ∧ E.sin = Real.sin

/-- A rational environment for evaluating the script: a 400 by 600 canvas,
`Math.PI` as its double-precision value and polynomial stand-ins for
`Math.cos` and `Math.sin`. -/
def ratEnv : Env ℚ :=
  { gameWidth := 400
    gameHeight := 600
    pi := 884279719003555 / 281474976710656
    cos := fun x => 1 - x ^ 2 / 2 + x ^ 4 / 24
    sin := fun x => x - x ^ 3 / 6 + x ^ 5 / 120 }

/-- The environment `ratEnv` with a canvas only 20 high, on which a launched ball
is above the top boundary after one tick. -/
def lowEnv : Env ℚ :=
  { ratEnv with gameHeight := 20 }

/-- A running state of `ratEnv` with the given ball position, velocity and
score; the arrow is as in the initial state. -/
def ratState (x y dx dy : ℚ) (score : Nat) : State ℚ :=
  { initial ratEnv with ballX := x, ballY := y, ballDX := dx, ballDY := dy, player1Score := score }

/-- The aim invariant: the angle is at most one step outside the sweep interval
and, when it is outside, the direction points back into it. -/
def AimInv {α : Type} [LinearOrderedField α] (E : Env α) (s : State α) : Prop :=
  E.pi / 9 - CONSTANT_ARROW_SPEED α ≤ s.arrowAngle ∧
  s.arrowAngle ≤ 16 * E.pi / 18 + CONSTANT_ARROW_SPEED α ∧
  (s.arrowDirection = 1 ∨ s.arrowDirection = -1) ∧
  (16 * E.pi / 18 < s.arrowAngle → s.arrowDirection = -1) ∧
  (s.arrowAngle < E.pi / 9 → s.arrowDirection = 1)

/-- The flight invariant: a ball in flight moves upwards, and the ball is never
below the launch origin. -/
def FlightInv {α : Type} [LinearOrderedField α] (E : Env α) (s : State α) : Prop :=
  ((s.ballDX = 0 ∧ s.ballDY = 0) ∨ s.ballDY < 0) ∧ s.ballY ≤ E.gameHeight - ballSize α

/-- The score invariant: the score is at most 5 and the game is over exactly when
it is 5. -/
def ScoreInv {α : Type} (s : State α) : Prop :=
  s.player1Score ≤ 5 ∧ (s.isGameOver = true ↔ s.player1Score = 5)

/-- The environment's `Math.cos` and `Math.sin` approximate the real cosine and
sine to within `10⁻¹²` (IEEE doubles are within about `10⁻¹⁶`). -/
def ApproxTrig (E : Env ℝ) : Prop :=
  (∀ x : ℝ, |E.cos x - Real.cos x| ≤ 1 / 10 ^ 12) ∧
  (∀ x : ℝ, |E.sin x - Real.sin x| ≤ 1 / 10 ^ 12)

/-- A 400 by 600 canvas on an IEEE double platform at program start: `Math.PI` is
the double nearest `π`, and at the initial angle `Math.PI / 6` the functions
`Math.cos` and `Math.sin` return the doubles `0.8660254037844387` and
`0.49999999999999994`, written here as exact fractions; at other arguments the
polynomial stand-ins of `ratEnv` are used. -/
def dblEnv : Env ℚ :=
  { gameWidth := 400
    gameHeight := 600
    pi := 884279719003555 / 281474976710656
    cos := fun x =>
      if x = 884279719003555 / 281474976710656 / 6 then
        7800463371553963 / 9007199254740992
      else 1 - x ^ 2 / 2 + x ^ 4 / 24
    sin := fun x =>
      if x = 884279719003555 / 281474976710656 / 6 then
        9007199254740991 / 18014398509481984
      else x - x ^ 3 / 6 + x ^ 5 / 120 }

/-- The ball is idle or its velocity has squared length within `10⁻⁹` of 9. -/
def SpeedNear (s : State ℝ) : Prop :=
  (s.ballDX = 0 ∧ s.ballDY = 0) ∨ |s.ballDX ^ 2 + s.ballDY ^ 2 - 9| ≤ 1 / 10 ^ 9

theorem running_iff {α : Type} (s : State α) :
    (!s.isGamePaused && !s.isGameOver && s.gameLoopActive) = true ↔ running s := by
  simp [running, and_assoc]

section Lemmas

variable {α : Type} [LinearOrderedField α]

theorem aimInv_congr {E : Env α} {s t : State α} (ha : t.arrowAngle = s.arrowAngle)
    (hd : t.arrowDirection = s.arrowDirection) (h : AimInv E s) : AimInv E t := by
  unfold AimInv at *
  rw [ha, hd]
  exact h

theorem aimInv_resetBallPosition (E : Env α) (hpi : 0 ≤ E.pi) (s : State α) :
    AimInv E (resetBallPosition E s) := by
  simp only [AimInv, resetBallPosition, CONSTANT_ARROW_SPEED]
  refine ⟨by linarith, by linarith, Or.inl trivial, fun h => ?_, fun _ => trivial⟩
  exfalso
  linarith

theorem aimInv_updateArrow (E : Env α) (s : State α) (h : AimInv E s) :
    AimInv E (updateArrow E s) := by
  obtain ⟨h1, h2, h3, h4, h5⟩ := h
  simp only [CONSTANT_ARROW_SPEED] at h1 h2
  simp only [AimInv, updateArrow, CONSTANT_ARROW_SPEED]
  rcases h3 with hd | hd
  · have hle : s.arrowAngle ≤ 16 * E.pi / 18 := by
      by_contra hc
      have := h4 (not_le.mp hc)
      rw [hd] at this
      norm_num at this
    split_ifs with hc
    · rcases hc with hc | hc
      · simp only [hd] at hc ⊢
        refine ⟨by linarith, by linarith, Or.inr (by norm_num), fun _ => by norm_num, fun hlt => ?_⟩
        exfalso
        linarith
      · simp only [hd] at hc ⊢
        exfalso
        linarith
    · simp only [hd] at hc ⊢
      push_neg at hc
      refine ⟨by linarith, by linarith, Or.inl trivial, fun hgt => ?_, fun _ => trivial⟩
      exfalso
      linarith [hc.1]
  · have hge : E.pi / 9 ≤ s.arrowAngle := by
      by_contra hc
      have := h5 (not_le.mp hc)
      rw [hd] at this
      norm_num at this
    split_ifs with hc
    · rcases hc with hc | hc
      · simp only [hd] at hc ⊢
        exfalso
        linarith
      · simp only [hd] at hc ⊢
        refine ⟨by linarith, by linarith, Or.inl (by norm_num), fun hgt => ?_, fun _ => by norm_num⟩
        exfalso
        linarith
    · simp only [hd] at hc ⊢
      push_neg at hc
      refine ⟨by linarith, by linarith, Or.inr trivial, fun _ => trivial, fun hlt => ?_⟩
      exfalso
      linarith [hc.2]

theorem aimInv_initial (E : Env α) (hpi : 0 ≤ E.pi) : AimInv E (initial E) := by
  simp only [AimInv, initial, CONSTANT_ARROW_SPEED]
  refine ⟨by linarith, by linarith, Or.inl trivial, fun h => ?_, fun _ => trivial⟩
  exfalso
  linarith

theorem aimInv_moveBall (E : Env α) (hpi : 0 ≤ E.pi) (s : State α) (h : AimInv E s) :
    AimInv E (moveBall E s) := by
  unfold moveBall
  dsimp only
  split_ifs <;>
    first
    | exact aimInv_resetBallPosition E hpi _
    | exact aimInv_congr rfl rfl h

theorem aimInv_gameLoop (E : Env α) (hpi : 0 ≤ E.pi) (s : State α) (h : AimInv E s) :
    AimInv E (gameLoop E s) := by
  unfold gameLoop
  dsimp only
  split_ifs
  · exact aimInv_congr rfl rfl (aimInv_updateArrow E s h)
  · exact aimInv_congr rfl rfl (aimInv_moveBall E hpi s h)
  · exact h

theorem aimInv_step (E : Env α) (hpi : 0 ≤ E.pi) (s : State α) (e : Event)
    (h : AimInv E s) : AimInv E (step E s e) := by
  cases e with
  | tick => exact aimInv_gameLoop E hpi _ (aimInv_congr rfl rfl h)
  | keydown key =>
    simp only [step, keydown]
    split_ifs <;> exact h
  | click =>
    simp only [step, click]
    split_ifs <;> exact h
  | touchstart =>
    simp only [step, touchstart]
    split_ifs <;> exact h
  | togglePause =>
    simp only [step, togglePause]
    split_ifs <;> exact aimInv_congr rfl rfl h
  | resetGame => exact aimInv_congr rfl rfl (aimInv_resetBallPosition E hpi s)

theorem run_append (E : Env α) (s : State α) (es fs : List Event) :
    run E s (es ++ fs) = run E (run E s es) fs := by
  simp [run, List.foldl_append]

theorem run_cons (E : Env α) (s : State α) (e : Event) (es : List Event) :
    run E s (e :: es) = run E (step E s e) es := rfl

theorem aimInv_run (E : Env α) (hpi : 0 ≤ E.pi) (es : List Event) :
    ∀ s : State α, AimInv E s → AimInv E (run E s es) := by
  induction es with
  | nil => exact fun s h => h
  | cons e es ih => exact fun s h => ih _ (aimInv_step E hpi s e h)

theorem aimInv_of_reachable (E : Env α) (hpi : 0 ≤ E.pi) (s : State α)
    (h : Reachable E s) : AimInv E s := by
  obtain ⟨es, rfl⟩ := h
  exact aimInv_run E hpi es _ (aimInv_initial E hpi)

/-- From the initial state the first 324 ticks only sweep the arrow upwards. -/
theorem run_ticks_initial (E : Env α) (h1 : 3141 / 1000 < E.pi) (h2 : E.pi < 315 / 100)
    (n : Nat) (hn : n ≤ 324) :
    run E (initial E) (List.replicate n Event.tick) =
      { initial E with arrowAngle := E.pi / 6 + (n : α) * (7 / 1000) } := by
  induction n with
  | zero => simp [run, initial]
  | succ n ih =>
    rw [List.replicate_succ', run_append, ih (by omega)]
    have hn1 : ((n : α) + 1) ≤ 324 := by exact_mod_cast hn
    have hn0 : (0 : α) ≤ (n : α) := Nat.cast_nonneg n
    have hc : ¬ (E.pi / 6 + (n : α) * (7 / 1000) + 1 * (7 / 1000) > 16 * E.pi / 18 ∨
        E.pi / 6 + (n : α) * (7 / 1000) + 1 * (7 / 1000) < E.pi / 9) := by
      push_neg
      constructor <;> linarith
    simp only [run, List.foldl, step, tick, gameLoop, updateArrow, requestAnimationFrame, initial,
      CONSTANT_ARROW_SPEED, Bool.not_false, Bool.and_self, and_self, if_true, if_neg hc]
    simp only [Nat.cast_succ]
    congr 2
    ring

theorem updateArrow_player1Score (E : Env α) (s : State α) :
    (updateArrow E s).player1Score = s.player1Score := by
  simp only [updateArrow]
  split_ifs <;> rfl

/-- The score after `moveBall`: one more exactly when the moved ball is above the
top boundary with its centre strictly inside the goal span. -/
theorem moveBall_player1Score (E : Env α) (s : State α) :
    (moveBall E s).player1Score =
      if s.ballY + s.ballDY - ballSize α / 2 < 0 ∧
          (s.ballX + s.ballDX > goalX E ∧ s.ballX + s.ballDX < goalX E + goalWidth α) then
        s.player1Score + 1
      else s.player1Score := by
  by_cases htop : s.ballY + s.ballDY - ballSize α / 2 < 0
  · by_cases hgoal : s.ballX + s.ballDX > goalX E ∧ s.ballX + s.ballDX < goalX E + goalWidth α
    · rw [if_pos ⟨htop, hgoal⟩]
      simp only [moveBall]
      split_ifs <;> rfl
    · rw [if_neg (fun h => hgoal h.2)]
      simp only [moveBall]
      split_ifs <;> rfl
  · rw [if_neg (fun h => htop h.1)]
    simp only [moveBall]
    split_ifs <;> rfl

end Lemmas

/-! ## C1: the bound on the aim angle -/

/-- C1 (counterexample). On a 400 by 600 canvas with the real `π`, the state
reached from the initial state by 324 ticks is idle and running, and the
`updateArrow` of the next tick leaves `arrowAngle = π/6 + 325 * 0.007`, which is
above the upper bound `16π/18`. -/
theorem updateArrow_angle_exceeds_bound :
    Reachable (Env.mk 400 600 Real.pi Real.cos Real.sin)
      (run (Env.mk 400 600 Real.pi Real.cos Real.sin)
        (initial (Env.mk 400 600 Real.pi Real.cos Real.sin)) (List.replicate 324 Event.tick)) ∧
    idle (run (Env.mk 400 600 Real.pi Real.cos Real.sin)
        (initial (Env.mk 400 600 Real.pi Real.cos Real.sin)) (List.replicate 324 Event.tick)) ∧
    running (run (Env.mk 400 600 Real.pi Real.cos Real.sin)
        (initial (Env.mk 400 600 Real.pi Real.cos Real.sin)) (List.replicate 324 Event.tick)) ∧
    ¬ (updateArrow (Env.mk 400 600 Real.pi Real.cos Real.sin)
        (run (Env.mk 400 600 Real.pi Real.cos Real.sin)
          (initial (Env.mk 400 600 Real.pi Real.cos Real.sin))
          (List.replicate 324 Event.tick))).arrowAngle ≤ 16 * Real.pi / 18 := by
  have h1 : (3141 / 1000 : ℝ) < Real.pi := by
    have := Real.pi_gt_d4
    norm_num at this ⊢
    linarith
  have h2 : Real.pi < (315 / 100 : ℝ) := by
    have := Real.pi_lt_d2
    norm_num at this ⊢
    exact this
  have hrun := run_ticks_initial (Env.mk 400 600 Real.pi Real.cos Real.sin) h1 h2 324 le_rfl
  refine ⟨⟨_, rfl⟩, ?_, ?_, ?_⟩
  · rw [hrun]
    exact ⟨rfl, rfl⟩
  · rw [hrun]
    exact ⟨rfl, rfl, rfl⟩
  · rw [hrun]
    simp only [updateArrow, initial, CONSTANT_ARROW_SPEED]
    split_ifs <;> simp only [not_le] <;> norm_num <;> linarith

/-- C1 (amended). With the real `π`, in every state reachable from the initial
state by ticks, launches, `togglePause` and `resetGame`, on every canvas size, if
the ball is idle then the angle left by `updateArrow` lies in
`[π/9 - 0.007, 16π/18 + 0.007]`: it can pass a bound by at most one step. -/
theorem updateArrow_angle_within_one_step (E : Env ℝ) (hM : RealMath E) (s : State ℝ)
    (hr : Reachable E s) (_hi : idle s) :
    Real.pi / 9 - 7 / 1000 ≤ (updateArrow E s).arrowAngle ∧
    (updateArrow E s).arrowAngle ≤ 16 * Real.pi / 18 + 7 / 1000 := by
  have hpi : 0 ≤ E.pi := by
    rw [hM.1]
    exact Real.pi_pos.le
  have h := aimInv_updateArrow E s (aimInv_of_reachable E hpi s hr)
  simp only [AimInv, CONSTANT_ARROW_SPEED, hM.1] at h
  exact ⟨h.1, h.2.1⟩

/-- C1 (witness). The amended bound at the initial state of a 400 by 600 canvas. -/
theorem updateArrow_angle_within_one_step_witness :
    Real.pi / 9 - 7 / 1000 ≤
      (updateArrow (Env.mk 400 600 Real.pi Real.cos Real.sin)
        (initial (Env.mk 400 600 Real.pi Real.cos Real.sin))).arrowAngle ∧
    (updateArrow (Env.mk 400 600 Real.pi Real.cos Real.sin)
        (initial (Env.mk 400 600 Real.pi Real.cos Real.sin))).arrowAngle ≤
      16 * Real.pi / 18 + 7 / 1000 :=
  updateArrow_angle_within_one_step (Env.mk 400 600 Real.pi Real.cos Real.sin) ⟨rfl, rfl, rfl⟩
    (initial (Env.mk 400 600 Real.pi Real.cos Real.sin)) ⟨[], rfl⟩ ⟨rfl, rfl⟩

/-! ## C2, C3: the launch handlers -/

theorem abs_sin_sub_sin_le_abs (x y : ℝ) : |Real.sin x - Real.sin y| ≤ |x - y| := by
  rw [Real.sin_sub_sin, abs_mul, abs_mul]
  have h1 : |Real.sin ((x - y) / 2)| ≤ |(x - y) / 2| := Real.abs_sin_le_abs
  have h2 : |Real.cos ((x + y) / 2)| ≤ 1 := Real.abs_cos_le_one _
  have h3 : |(x - y) / 2| = |x - y| / 2 := by rw [abs_div]; norm_num
  have h4 : (0 : ℝ) ≤ |Real.sin ((x - y) / 2)| := abs_nonneg _
  have h5 : (0 : ℝ) ≤ |Real.cos ((x + y) / 2)| := abs_nonneg _
  rw [h3] at h1
  simp only [abs_two]
  nlinarith

theorem abs_cos_sub_cos_le_abs (x y : ℝ) : |Real.cos x - Real.cos y| ≤ |x - y| := by
  rw [Real.cos_sub_cos, abs_mul, abs_mul]
  have h1 : |Real.sin ((x - y) / 2)| ≤ |(x - y) / 2| := Real.abs_sin_le_abs
  have h2 : |Real.sin ((x + y) / 2)| ≤ 1 := Real.abs_sin_le_one _
  have h3 : |(x - y) / 2| = |x - y| / 2 := by rw [abs_div]; norm_num
  have h4 : (0 : ℝ) ≤ |Real.sin ((x - y) / 2)| := abs_nonneg _
  have h5 : (0 : ℝ) ≤ |Real.sin ((x + y) / 2)| := abs_nonneg _
  rw [h3] at h1
  simp only [abs_neg, abs_two]
  nlinarith

/-- Near `π/6` an approximate cosine and sine give a launch velocity near
`(3√3/2, -3/2)`. -/
theorem launch_near_pi_div_six (E : Env ℝ) (hM : ApproxTrig E) (a : ℝ)
    (ha : |a - Real.pi / 6| ≤ 1 / 10 ^ 12) :
    |3 * E.cos a - 3 * Real.sqrt 3 / 2| ≤ 1 / 10 ^ 9 ∧
    |-(3 * E.sin a) - -(3 / 2)| ≤ 1 / 10 ^ 9 := by
  have hc1 := abs_le.mp (hM.1 a)
  have hs1 := abs_le.mp (hM.2 a)
  have hc2 := abs_le.mp ((abs_cos_sub_cos_le_abs a (Real.pi / 6)).trans ha)
  have hs2 := abs_le.mp ((abs_sin_sub_sin_le_abs a (Real.pi / 6)).trans ha)
  rw [Real.cos_pi_div_six] at hc2
  rw [Real.sin_pi_div_six] at hs2
  constructor
  · rw [abs_le]
    constructor <;> linarith [hc1.1, hc1.2, hc2.1, hc2.2]
  · rw [abs_le]
    constructor <;> linarith [hs1.1, hs1.2, hs2.1, hs2.2]

/-- C2 (counterexample). On a double platform the arrow starts at `Math.PI / 6`,
where `Math.sin` returns `0.49999999999999994`. A click at program start is a
launch from an idle state at that angle, and it assigns
`ballDY = -3 * 0.49999999999999994`, which is not `-3/2`. The product is taken
exactly here; rounded to a double it is `-1.4999999999999998`, not `-3/2` either. -/
theorem launch_at_start_not_exact :
    idle (initial dblEnv) ∧
    (initial dblEnv).arrowAngle = dblEnv.pi / 6 ∧
    (click dblEnv (initial dblEnv)).ballDY = -3 * (9007199254740991 / 18014398509481984) ∧
    ¬ (click dblEnv (initial dblEnv)).ballDY = -(3 / 2) := by
  have h : (click dblEnv (initial dblEnv)).ballDY =
      -3 * (9007199254740991 / 18014398509481984) := by
    simp [click, initial, dblEnv, requestAnimationFrame, CONSTANT_BALL_SPEED]
  refine ⟨⟨rfl, rfl⟩, rfl, h, ?_⟩
  rw [h]
  norm_num

/-- C2 (amended). In an idle state each launch handler (the `ArrowUp` key, a
click, a touch) sets `ballDX = 3 * Math.cos(arrowAngle)` and
`ballDY = -3 * Math.sin(arrowAngle)` from the angle of that state and leaves the
other eight game variables as they were. When `Math.cos` and `Math.sin` are
within `10⁻¹²` of the real cosine and sine and `arrowAngle` is within `10⁻¹²` of
`π/6`, the stored `ballDX` is within `10⁻⁹` of `3√3/2` and `ballDY` within
`10⁻⁹` of `-3/2`. -/
theorem launch_effect (E : Env ℝ) (s : State ℝ) (hi : idle s) :
    ∀ t ∈ [keydown E "ArrowUp" s, click E s, touchstart E s],
      t.ballDX = 3 * E.cos s.arrowAngle ∧
      t.ballDY = -(3 * E.sin s.arrowAngle) ∧
      t.arrowAngle = s.arrowAngle ∧
      t.arrowDirection = s.arrowDirection ∧
      t.ballX = s.ballX ∧
      t.ballY = s.ballY ∧
      t.player1Score = s.player1Score ∧
      t.isGamePaused = s.isGamePaused ∧
      t.isGameOver = s.isGameOver ∧
      t.gameLoopActive = s.gameLoopActive ∧
      (ApproxTrig E → |s.arrowAngle - Real.pi / 6| ≤ 1 / 10 ^ 12 →
        |t.ballDX - 3 * Real.sqrt 3 / 2| ≤ 1 / 10 ^ 9 ∧
        |t.ballDY - -(3 / 2)| ≤ 1 / 10 ^ 9) := by
  have key : ∀ t : State ℝ, t.toGame =
      { s.toGame with
        ballDX := 3 * E.cos s.arrowAngle
        ballDY := -3 * E.sin s.arrowAngle } →
      t.ballDX = 3 * E.cos s.arrowAngle ∧
      t.ballDY = -(3 * E.sin s.arrowAngle) ∧
      t.arrowAngle = s.arrowAngle ∧
      t.arrowDirection = s.arrowDirection ∧
      t.ballX = s.ballX ∧
      t.ballY = s.ballY ∧
      t.player1Score = s.player1Score ∧
      t.isGamePaused = s.isGamePaused ∧
      t.isGameOver = s.isGameOver ∧
      t.gameLoopActive = s.gameLoopActive ∧
      (ApproxTrig E → |s.arrowAngle - Real.pi / 6| ≤ 1 / 10 ^ 12 →
        |t.ballDX - 3 * Real.sqrt 3 / 2| ≤ 1 / 10 ^ 9 ∧
        |t.ballDY - -(3 / 2)| ≤ 1 / 10 ^ 9) := by
    intro t ht
    have hx : t.ballDX = 3 * E.cos s.arrowAngle := by rw [ht]
    have hy : t.ballDY = -(3 * E.sin s.arrowAngle) := by rw [ht]; ring
    refine ⟨hx, hy, by rw [ht], by rw [ht], by rw [ht], by rw [ht], by rw [ht],
      by rw [ht], by rw [ht], by rw [ht], fun hM ha => ?_⟩
    rw [hx, hy]
    exact launch_near_pi_div_six E hM s.arrowAngle ha
  intro t ht
  simp only [List.mem_cons, List.mem_singleton, List.not_mem_nil, or_false] at ht
  have hi2 : s.ballDX = 0 ∧ s.ballDY = 0 := hi
  rcases ht with rfl | rfl | rfl
  · apply key
    simp only [keydown, if_true, if_pos hi2, requestAnimationFrame, CONSTANT_BALL_SPEED]
  · apply key
    simp only [click, if_pos hi2, requestAnimationFrame, CONSTANT_BALL_SPEED]
  · apply key
    simp only [touchstart, if_pos hi2, requestAnimationFrame, CONSTANT_BALL_SPEED]

/-- The double nearest `π` is within `10⁻¹²` of `π`, also after division by 6. -/
theorem double_pi_div_six_near :
    |(884279719003555 / 281474976710656 : ℝ) / 6 - Real.pi / 6| ≤ 1 / 10 ^ 12 := by
  have h1 := Real.pi_gt_d20
  have h2 := Real.pi_lt_d20
  norm_num at h1 h2
  rw [abs_le]
  constructor <;> norm_num <;> linarith

/-- Cosine and sine that are off by `10⁻¹⁶` are approximate in the sense of
`ApproxTrig`. -/
theorem approxTrig_offset (w h p : ℝ) :
    ApproxTrig (Env.mk w h p (fun x => Real.cos x + 1 / 10 ^ 16)
      (fun x => Real.sin x - 1 / 10 ^ 16)) := by
  constructor
  · intro x
    have : Real.cos x + 1 / 10 ^ 16 - Real.cos x = 1 / 10 ^ 16 := by ring
    show |Real.cos x + 1 / 10 ^ 16 - Real.cos x| ≤ 1 / 10 ^ 12
    rw [this, abs_le]
    constructor <;> norm_num
  · intro x
    have : Real.sin x - 1 / 10 ^ 16 - Real.sin x = -(1 / 10 ^ 16) := by ring
    show |Real.sin x - 1 / 10 ^ 16 - Real.sin x| ≤ 1 / 10 ^ 12
    rw [this, abs_le]
    constructor <;> norm_num

/-- C2 (witness). A click at program start on a 400 by 600 canvas where `Math.PI`
is the double nearest `π` and `Math.cos`, `Math.sin` are off by `10⁻¹⁶`: the
stored velocity is within `10⁻⁹` of `(3√3/2, -3/2)`. -/
theorem launch_effect_witness :
    |(click (Env.mk 400 600 (884279719003555 / 281474976710656)
        (fun x => Real.cos x + 1 / 10 ^ 16) (fun x => Real.sin x - 1 / 10 ^ 16))
      (initial (Env.mk 400 600 (884279719003555 / 281474976710656)
        (fun x => Real.cos x + 1 / 10 ^ 16) (fun x => Real.sin x - 1 / 10 ^ 16)))).ballDX -
      3 * Real.sqrt 3 / 2| ≤ 1 / 10 ^ 9 ∧
    |(click (Env.mk 400 600 (884279719003555 / 281474976710656)
        (fun x => Real.cos x + 1 / 10 ^ 16) (fun x => Real.sin x - 1 / 10 ^ 16))
      (initial (Env.mk 400 600 (884279719003555 / 281474976710656)
        (fun x => Real.cos x + 1 / 10 ^ 16) (fun x => Real.sin x - 1 / 10 ^ 16)))).ballDY -
      -(3 / 2)| ≤ 1 / 10 ^ 9 :=
  (launch_effect
    (Env.mk 400 600 (884279719003555 / 281474976710656)
      (fun x => Real.cos x + 1 / 10 ^ 16) (fun x => Real.sin x - 1 / 10 ^ 16))
    (initial (Env.mk 400 600 (884279719003555 / 281474976710656)
      (fun x => Real.cos x + 1 / 10 ^ 16) (fun x => Real.sin x - 1 / 10 ^ 16)))
    ⟨rfl, rfl⟩
    (click (Env.mk 400 600 (884279719003555 / 281474976710656)
      (fun x => Real.cos x + 1 / 10 ^ 16) (fun x => Real.sin x - 1 / 10 ^ 16))
      (initial (Env.mk 400 600 (884279719003555 / 281474976710656)
        (fun x => Real.cos x + 1 / 10 ^ 16) (fun x => Real.sin x - 1 / 10 ^ 16))))
    (by simp)).2.2.2.2.2.2.2.2.2.2
    (approxTrig_offset 400 600 (884279719003555 / 281474976710656))
    double_pi_div_six_near

section Launch

variable {α : Type} [LinearOrderedField α]

/-- C3. In a state where the ball is in flight, `(ballDX, ballDY) ≠ (0, 0)`, every
launch handler (a key press of any key, a click, a touch) returns the state it
was given: no game variable changes and no `gameLoop` invocation is requested. -/
theorem launch_in_flight_noop (E : Env α) (s : State α) (hf : ¬ (s.ballDX = 0 ∧ s.ballDY = 0)) :
    (∀ key : String, keydown E key s = s) ∧ click E s = s ∧ touchstart E s = s := by
  refine ⟨fun key => ?_, ?_, ?_⟩
  · simp only [keydown, if_neg hf, ite_self]
  · simp only [click, if_neg hf]
  · simp only [touchstart, if_neg hf]

end Launch

/-- C3 (witness). A ball moving up and to the right on the 400 by 600 canvas. -/
theorem launch_in_flight_noop_witness :
    (∀ key : String, keydown ratEnv key (ratState 200 300 (9 / 5) (-12 / 5) 0) =
      ratState 200 300 (9 / 5) (-12 / 5) 0) ∧
    click ratEnv (ratState 200 300 (9 / 5) (-12 / 5) 0) = ratState 200 300 (9 / 5) (-12 / 5) 0 ∧
    touchstart ratEnv (ratState 200 300 (9 / 5) (-12 / 5) 0) =
      ratState 200 300 (9 / 5) (-12 / 5) 0 :=
  launch_in_flight_noop ratEnv (ratState 200 300 (9 / 5) (-12 / 5) 0)
    (by simp [ratState])

/-! ## C4, C5: the ball crosses the top boundary -/

/-- C4 (counterexample). On the 400 by 600 canvas the goal spans `[157.5, 242.5]`.
A running ball at `(155.7, 9)` with velocity `(1.8, -2.4)` moves to `(157.5, 6.6)`:
it crosses the top with its centre on the left endpoint of the closed goal span,
and the tick leaves the score at 0. -/
theorem goal_endpoint_not_scored :
    running (ratState (1557 / 10) 9 (9 / 5) (-12 / 5) 0) ∧
    ¬ idle (ratState (1557 / 10) 9 (9 / 5) (-12 / 5) 0) ∧
    (9 : ℚ) + (-12 / 5) - ballSize ℚ / 2 < 0 ∧
    goalX ratEnv ≤ 1557 / 10 + 9 / 5 ∧
    (1557 / 10 : ℚ) + 9 / 5 ≤ goalX ratEnv + goalWidth ℚ ∧
    (tick ratEnv (ratState (1557 / 10) 9 (9 / 5) (-12 / 5) 0)).player1Score = 0 := by
  refine ⟨⟨rfl, rfl, rfl⟩, ?_, ?_, ?_, ?_, ?_⟩
  · simp [idle, ratState]
  · norm_num [ballSize]
  · norm_num [goalX, goalWidth, ratEnv]
  · norm_num [goalX, goalWidth, ratEnv]
  · norm_num [tick, gameLoop, moveBall, resetBallPosition, requestAnimationFrame, ratState,
      initial, ratEnv, goalX, goalWidth, ballSize]

section TopBoundary

variable {α : Type} [LinearOrderedField α]

/-- C4 (amended). In a running state with the ball in flight, if the physics step
moves the ball to a position with `ballY - ballSize/2 < 0` and its centre strictly
inside the goal span, `goalX < ballX < goalX + goalWidth`, then the tick raises
the score by exactly 1 and performs the turn reset; when the new score is 5 (or
more) it also sets `isGameOver = true` and `gameLoopActive = false` in the same
tick, and otherwise it leaves those two flags unchanged. -/
theorem tick_goal_scored (E : Env α) (s : State α) (hr : running s) (hf : ¬ idle s)
    (htop : s.ballY + s.ballDY - ballSize α / 2 < 0)
    (hl : goalX E < s.ballX + s.ballDX) (hu : s.ballX + s.ballDX < goalX E + goalWidth α) :
    (tick E s).player1Score = s.player1Score + 1 ∧
    (tick E s).ballX = E.gameWidth / 2 ∧
    (tick E s).ballY = E.gameHeight - ballSize α ∧
    (tick E s).ballDX = 0 ∧
    (tick E s).ballDY = 0 ∧
    (tick E s).arrowAngle = E.pi / 6 ∧
    (tick E s).arrowDirection = 1 ∧
    (tick E s).isGamePaused = s.isGamePaused ∧
    (5 ≤ (tick E s).player1Score →
      (tick E s).isGameOver = true ∧ (tick E s).gameLoopActive = false) ∧
    ((tick E s).player1Score < 5 →
      (tick E s).isGameOver = s.isGameOver ∧ (tick E s).gameLoopActive = s.gameLoopActive) := by
  obtain ⟨hp, hg, ha⟩ := hr
  have hf2 : ¬ (s.ballDX = 0 ∧ s.ballDY = 0) := hf
  have hgoal : s.ballX + s.ballDX > goalX E ∧ s.ballX + s.ballDX < goalX E + goalWidth α :=
    ⟨hl, hu⟩
  simp only [tick, gameLoop, moveBall, hp, hg, ha, Bool.not_false, Bool.and_self, if_true,
    if_neg hf2, requestAnimationFrame]
  split_ifs with h1 h2 h3 <;>
    simp only [resetBallPosition, gameOver, and_self, true_and, and_true, implies_true,
      ge_iff_le] at * <;>
    omega

/-- C5. In a running state with the ball in flight, if the physics step moves the
ball to a position with `ballY - ballSize/2 < 0` and its centre outside the goal
span (`ballX < goalX` or `ballX > goalX + goalWidth`), then the tick leaves the
score, `isGameOver` and `gameLoopActive` unchanged and performs the turn reset:
ball at the launch origin, zero velocity, `arrowAngle = π/6`, `arrowDirection = 1`. -/
theorem tick_missed_shot (E : Env α) (s : State α) (hr : running s) (hf : ¬ idle s)
    (htop : s.ballY + s.ballDY - ballSize α / 2 < 0)
    (hout : s.ballX + s.ballDX < goalX E ∨ s.ballX + s.ballDX > goalX E + goalWidth α) :
    (tick E s).player1Score = s.player1Score ∧
    (tick E s).isGameOver = s.isGameOver ∧
    (tick E s).gameLoopActive = s.gameLoopActive ∧
    (tick E s).ballX = E.gameWidth / 2 ∧
    (tick E s).ballY = E.gameHeight - ballSize α ∧
    (tick E s).ballDX = 0 ∧
    (tick E s).ballDY = 0 ∧
    (tick E s).arrowAngle = E.pi / 6 ∧
    (tick E s).arrowDirection = 1 := by
  obtain ⟨hp, hg, ha⟩ := hr
  have hf2 : ¬ (s.ballDX = 0 ∧ s.ballDY = 0) := hf
  have hgoal : ¬ (s.ballX + s.ballDX > goalX E ∧ s.ballX + s.ballDX < goalX E + goalWidth α) := by
    rintro ⟨h1, h2⟩
    rcases hout with h | h
    · exact absurd h1 (not_lt.mpr h.le)
    · exact absurd h2 (not_lt.mpr h.le)
  simp only [tick, gameLoop, moveBall, hp, hg, ha, Bool.not_false, Bool.and_self, if_true,
    if_neg hf2, requestAnimationFrame]
  split_ifs <;> simp only [resetBallPosition, and_self]

end TopBoundary

/-- C4 (witness). A ball that crosses the top at the centre of the goal with the
score at 4: the tick makes the score 5 and ends the game. -/
theorem tick_goal_scored_witness :
    (tick ratEnv (ratState 200 9 0 (-3) 4)).player1Score = 5 ∧
    (tick ratEnv (ratState 200 9 0 (-3) 4)).isGameOver = true ∧
    (tick ratEnv (ratState 200 9 0 (-3) 4)).gameLoopActive = false := by
  have h := tick_goal_scored ratEnv (ratState 200 9 0 (-3) 4) ⟨rfl, rfl, rfl⟩
    (by simp [idle, ratState]) (by norm_num [ratState, ballSize])
    (by norm_num [ratState, goalX, goalWidth, ratEnv])
    (by norm_num [ratState, goalX, goalWidth, ratEnv])
  have h5 : (tick ratEnv (ratState 200 9 0 (-3) 4)).player1Score = 5 := h.1
  exact ⟨h5, h.2.2.2.2.2.2.2.2.1 (by rw [h5])⟩

/-- C5 (witness). A ball that crosses the top at `x = 101.8`, left of the goal. -/
theorem tick_missed_shot_witness :
    (tick ratEnv (ratState 100 9 (9 / 5) (-12 / 5) 2)).player1Score = 2 ∧
    (tick ratEnv (ratState 100 9 (9 / 5) (-12 / 5) 2)).ballDX = 0 ∧
    (tick ratEnv (ratState 100 9 (9 / 5) (-12 / 5) 2)).ballDY = 0 := by
  have h := tick_missed_shot ratEnv (ratState 100 9 (9 / 5) (-12 / 5) 2) ⟨rfl, rfl, rfl⟩
    (by simp [idle, ratState]) (by norm_num [ratState, ballSize])
    (Or.inl (by norm_num [ratState, goalX, goalWidth, ratEnv]))
  exact ⟨h.1, h.2.2.2.2.2.1, h.2.2.2.2.2.2.1⟩

/-! ## C6: the full reset -/

section Reset

variable {α : Type} [LinearOrderedField α]

/-- C6. From every state `resetGame` returns a state whose ten game variables are
those of the initial state: `arrowAngle = π/6`, `arrowDirection = 1`,
`ballX = gameWidth/2`, `ballY = gameHeight - ballSize`, `ballDX = ballDY = 0`,
`player1Score = 0`, `isGamePaused = false`, `isGameOver = false` and
`gameLoopActive = true`. -/
theorem resetGame_restores_initial (E : Env α) (s : State α) :
    (resetGame E s).toGame = (initial E).toGame ∧
    (resetGame E s).arrowAngle = E.pi / 6 ∧
    (resetGame E s).arrowDirection = 1 ∧
    (resetGame E s).ballX = E.gameWidth / 2 ∧
    (resetGame E s).ballY = E.gameHeight - ballSize α ∧
    (resetGame E s).ballDX = 0 ∧
    (resetGame E s).ballDY = 0 ∧
    (resetGame E s).player1Score = 0 ∧
    (resetGame E s).isGamePaused = false ∧
    (resetGame E s).isGameOver = false ∧
    (resetGame E s).gameLoopActive = true :=
  ⟨rfl, rfl, rfl, rfl, rfl, rfl, rfl, rfl, rfl, rfl, rfl⟩

end Reset

/-! ## C7: the score moves by at most one, and only on a goal -/

section Score

variable {α : Type} [LinearOrderedField α]

/-- C7. For every state and every event other than `resetGame` (a tick, a key
press, a click, a touch, `togglePause`) the new score is the old score or the
old score plus 1, and it is the old score plus 1 only when the event is a tick in
a running state with the ball in flight whose physics step crossed the top
boundary with the centre strictly inside the goal span (hence inside the closed
span as well). -/
theorem score_step (E : Env α) (s : State α) (e : Event) (he : e ≠ Event.resetGame) :
    ((step E s e).player1Score = s.player1Score ∨
      (step E s e).player1Score = s.player1Score + 1) ∧
    ((step E s e).player1Score = s.player1Score + 1 →
      e = Event.tick ∧ running s ∧ ¬ idle s ∧
      s.ballY + s.ballDY - ballSize α / 2 < 0 ∧
      goalX E < s.ballX + s.ballDX ∧ s.ballX + s.ballDX < goalX E + goalWidth α ∧
      goalX E ≤ s.ballX + s.ballDX ∧ s.ballX + s.ballDX ≤ goalX E + goalWidth α) := by
  cases e with
  | resetGame => exact absurd rfl he
  | keydown key =>
    have h : (step E s (Event.keydown key)).player1Score = s.player1Score := by
      simp only [step, keydown]
      split_ifs <;> rfl
    rw [h]
    exact ⟨Or.inl rfl, fun h => absurd h (by omega)⟩
  | click =>
    have h : (step E s Event.click).player1Score = s.player1Score := by
      simp only [step, click]
      split_ifs <;> rfl
    rw [h]
    exact ⟨Or.inl rfl, fun h => absurd h (by omega)⟩
  | touchstart =>
    have h : (step E s Event.touchstart).player1Score = s.player1Score := by
      simp only [step, touchstart]
      split_ifs <;> rfl
    rw [h]
    exact ⟨Or.inl rfl, fun h => absurd h (by omega)⟩
  | togglePause =>
    have h : (step E s Event.togglePause).player1Score = s.player1Score := by
      simp only [step, togglePause]
      split_ifs <;> rfl
    rw [h]
    exact ⟨Or.inl rfl, fun h => absurd h (by omega)⟩
  | tick =>
    by_cases hrun : (!s.isGamePaused && !s.isGameOver && s.gameLoopActive) = true
    · by_cases hidle : s.ballDX = 0 ∧ s.ballDY = 0
      · have h : (step E s Event.tick).player1Score = s.player1Score := by
          simp only [step, tick, gameLoop, if_pos hrun, if_pos hidle, requestAnimationFrame]
          exact updateArrow_player1Score E _
        rw [h]
        exact ⟨Or.inl rfl, fun h => absurd h (by omega)⟩
      · have h : (step E s Event.tick).player1Score =
            if s.ballY + s.ballDY - ballSize α / 2 < 0 ∧
                (s.ballX + s.ballDX > goalX E ∧ s.ballX + s.ballDX < goalX E + goalWidth α) then
              s.player1Score + 1
            else s.player1Score := by
          simp only [step, tick, gameLoop, if_pos hrun, if_neg hidle, requestAnimationFrame]
          exact moveBall_player1Score E _
        rw [h]
        split_ifs with hc
        · exact ⟨Or.inr rfl, fun _ => ⟨rfl, (running_iff s).mp hrun, hidle, hc.1, hc.2.1, hc.2.2,
            le_of_lt hc.2.1, le_of_lt hc.2.2⟩⟩
        · exact ⟨Or.inl rfl, fun h => absurd h (by omega)⟩
    · have h : (step E s Event.tick).player1Score = s.player1Score := by
        simp only [step, tick, gameLoop, if_neg hrun]
      rw [h]
      exact ⟨Or.inl rfl, fun h => absurd h (by omega)⟩

end Score

/-- C7 (witness). A tick that scores: the ball crosses the top at the centre of
the goal and the score goes from 2 to 3. -/
theorem score_step_witness :
    (step ratEnv (ratState 200 9 0 (-3) 2) Event.tick).player1Score = 2 ∨
    (step ratEnv (ratState 200 9 0 (-3) 2) Event.tick).player1Score = 2 + 1 :=
  (score_step ratEnv (ratState 200 9 0 (-3) 2) Event.tick (by decide)).1

/-! ## C8, C9: game over -/

section GameOver

variable {α : Type} [LinearOrderedField α]

/-- One event other than `resetGame` in a game-over state changes neither the
score nor the ball position nor the game-over flag. -/
theorem gameOver_step_frozen (E : Env α) (s : State α) (e : Event)
    (hg : s.isGameOver = true) (he : e ≠ Event.resetGame) :
    (step E s e).player1Score = s.player1Score ∧ (step E s e).ballX = s.ballX ∧
    (step E s e).ballY = s.ballY ∧ (step E s e).isGameOver = true := by
  cases e with
  | resetGame => exact absurd rfl he
  | keydown key =>
    simp only [step, keydown]
    split_ifs <;> exact ⟨rfl, rfl, rfl, hg⟩
  | click =>
    simp only [step, click]
    split_ifs <;> exact ⟨rfl, rfl, rfl, hg⟩
  | touchstart =>
    simp only [step, touchstart]
    split_ifs <;> exact ⟨rfl, rfl, rfl, hg⟩
  | togglePause =>
    simp only [step, togglePause]
    split_ifs <;> exact ⟨rfl, rfl, rfl, hg⟩
  | tick =>
    have hrun : ¬ (!s.isGamePaused && !s.isGameOver && s.gameLoopActive) = true := by
      simp [hg]
    simp only [step, tick, gameLoop, if_neg hrun]
    exact ⟨trivial, trivial, trivial, hg⟩

/-- C8. From every state with `isGameOver = true`, after every finite sequence of
ticks, launch events and `togglePause` (no `resetGame`), the score, `ballX` and
`ballY` are those of the starting state and `isGameOver` is still true. -/
theorem gameOver_frozen (E : Env α) (es : List Event) (s : State α)
    (hg : s.isGameOver = true) (hes : Event.resetGame ∉ es) :
    (run E s es).player1Score = s.player1Score ∧ (run E s es).ballX = s.ballX ∧
    (run E s es).ballY = s.ballY ∧ (run E s es).isGameOver = true := by
  induction es generalizing s with
  | nil => exact ⟨rfl, rfl, rfl, hg⟩
  | cons e es ih =>
    have he : e ≠ Event.resetGame := fun h => hes (h ▸ List.mem_cons_self _ _)
    have hs := gameOver_step_frozen E s e hg he
    have hr := ih (step E s e) hs.2.2.2 (fun h => hes (List.mem_cons_of_mem _ h))
    rw [run_cons]
    exact ⟨hr.1.trans hs.1, hr.2.1.trans hs.2.1, hr.2.2.1.trans hs.2.2.1, hr.2.2.2⟩

/-- The flags after `gameLoop` keep the implication "game over, hence loop
stopped". -/
theorem gameLoop_flags (E : Env α) (s : State α)
    (h : s.isGameOver = true → s.gameLoopActive = false) :
    (gameLoop E s).isGameOver = true → (gameLoop E s).gameLoopActive = false := by
  simp only [gameLoop, moveBall, updateArrow, requestAnimationFrame]
  split_ifs <;> first | exact h | exact fun _ => rfl

theorem step_flags (E : Env α) (s : State α) (e : Event)
    (h : s.isGameOver = true → s.gameLoopActive = false) :
    (step E s e).isGameOver = true → (step E s e).gameLoopActive = false := by
  cases e with
  | resetGame => exact fun hc => absurd hc (by simp [step, resetGame, requestAnimationFrame,
      resetBallPosition])
  | keydown key =>
    simp only [step, keydown]
    split_ifs <;> exact h
  | click =>
    simp only [step, click]
    split_ifs <;> exact h
  | touchstart =>
    simp only [step, touchstart]
    split_ifs <;> exact h
  | togglePause =>
    simp only [step, togglePause]
    split_ifs <;> exact h
  | tick => exact gameLoop_flags E _ h

/-- C9. In every state reachable from the initial state by ticks, launch events,
`togglePause` and `resetGame`, `isGameOver = true` implies
`gameLoopActive = false`. -/
theorem gameOver_implies_loop_stopped (E : Env α) (s : State α) (hr : Reachable E s)
    (hg : s.isGameOver = true) : s.gameLoopActive = false := by
  obtain ⟨es, rfl⟩ := hr
  have key : ∀ (es : List Event) (t : State α),
      (t.isGameOver = true → t.gameLoopActive = false) →
      (run E t es).isGameOver = true → (run E t es).gameLoopActive = false := by
    intro es
    induction es with
    | nil => exact fun t h => h
    | cons e es ih => exact fun t h => ih _ (step_flags E t e h)
  exact key es (initial E) (fun h => absurd h (by simp [initial])) hg

end GameOver

/-- C8 (witness). A game-over state with score 5: a click, two ticks and a
`togglePause` leave the score and the ball where they were. -/
theorem gameOver_frozen_witness :
    (run ratEnv (gameOver (ratState 200 585 0 0 5))
      [Event.click, Event.tick, Event.togglePause, Event.tick]).player1Score = 5 ∧
    (run ratEnv (gameOver (ratState 200 585 0 0 5))
      [Event.click, Event.tick, Event.togglePause, Event.tick]).ballX = 200 ∧
    (run ratEnv (gameOver (ratState 200 585 0 0 5))
      [Event.click, Event.tick, Event.togglePause, Event.tick]).ballY = 585 ∧
    (run ratEnv (gameOver (ratState 200 585 0 0 5))
      [Event.click, Event.tick, Event.togglePause, Event.tick]).isGameOver = true :=
  gameOver_frozen ratEnv [Event.click, Event.tick, Event.togglePause, Event.tick]
    (gameOver (ratState 200 585 0 0 5)) rfl (by decide)

/-- C9 (witness). On a canvas only 20 high the launched ball is above the top
boundary after one tick, inside the goal span; five launches, each followed by a
tick, reach a game-over state, and there the loop flag is false. -/
theorem gameOver_implies_loop_stopped_witness :
    (run lowEnv (initial lowEnv)
      [Event.click, Event.tick, Event.click, Event.tick, Event.click, Event.tick,
        Event.click, Event.tick, Event.click, Event.tick]).isGameOver = true ∧
    (run lowEnv (initial lowEnv)
      [Event.click, Event.tick, Event.click, Event.tick, Event.click, Event.tick,
        Event.click, Event.tick, Event.click, Event.tick]).gameLoopActive = false := by
  have hg : (run lowEnv (initial lowEnv)
      [Event.click, Event.tick, Event.click, Event.tick, Event.click, Event.tick,
        Event.click, Event.tick, Event.click, Event.tick]).isGameOver = true := by
    norm_num [run, step, tick, click, gameLoop, moveBall, resetBallPosition, gameOver,
      requestAnimationFrame, initial, lowEnv, ratEnv, goalX, goalWidth, ballSize,
      CONSTANT_BALL_SPEED]
  exact ⟨hg, gameOver_implies_loop_stopped lowEnv _ ⟨_, rfl⟩ hg⟩

/-! ## C10: pause -/

/-- Only the pause flag of the game variables is changed by `togglePause`. -/
theorem togglePause_toGame {α : Type} (u : State α) :
    (togglePause u).toGame = { u.toGame with isGamePaused := !u.isGamePaused } := by
  simp only [togglePause]
  split_ifs <;> rfl

section Pause

variable {α : Type} [LinearOrderedField α]

/-- Ticks in a paused state change no game variable. -/
theorem paused_ticks (E : Env α) (n : Nat) :
    ∀ t : State α, t.isGamePaused = true →
      (run E t (List.replicate n Event.tick)).toGame = t.toGame := by
  induction n with
  | zero => exact fun t _ => rfl
  | succ n ih =>
    intro t ht
    have hrun : ¬ (!t.isGamePaused && !t.isGameOver && t.gameLoopActive) = true := by
      simp [ht]
    have hstep : step E t Event.tick = { t with pending := t.pending - 1 } := by
      simp only [step, tick, gameLoop, if_neg hrun]
    rw [List.replicate_succ, run_cons, hstep]
    exact ih _ ht

/-- C10. For every unpaused state `s`, `togglePause`, then any number of ticks,
then `togglePause` again gives a state with the same ten game variables as `s`;
and `togglePause` itself changes no game variable other than `isGamePaused`,
which it negates. -/
theorem pause_freeze (E : Env α) (s : State α) (n : Nat) (hp : s.isGamePaused = false) :
    (togglePause (run E (togglePause s) (List.replicate n Event.tick))).toGame = s.toGame ∧
    (∀ u : State α,
      (togglePause u).toGame = { u.toGame with isGamePaused := !u.isGamePaused }) := by
  refine ⟨?_, togglePause_toGame⟩
  have h1 : (togglePause s).isGamePaused = true := by
    rw [show (togglePause s).isGamePaused = (togglePause s).toGame.isGamePaused from rfl,
      togglePause_toGame, hp]
    rfl
  have h2 := paused_ticks E n (togglePause s) h1
  have h3 : (run E (togglePause s) (List.replicate n Event.tick)).isGamePaused = true := by
    rw [show (run E (togglePause s) (List.replicate n Event.tick)).isGamePaused =
      (run E (togglePause s) (List.replicate n Event.tick)).toGame.isGamePaused from rfl, h2]
    exact h1
  rw [togglePause_toGame, h3, h2, togglePause_toGame, hp]
  cases s with
  | mk g p =>
    cases g
    simp only at hp
    subst hp
    rfl

end Pause

/-- C10 (witness). A ball in flight: pause, three ticks, resume. -/
theorem pause_freeze_witness :
    (togglePause (run ratEnv (togglePause (ratState 200 300 (9 / 5) (-12 / 5) 1))
      (List.replicate 3 Event.tick))).toGame = (ratState 200 300 (9 / 5) (-12 / 5) 1).toGame :=
  (pause_freeze ratEnv (ratState 200 300 (9 / 5) (-12 / 5) 1) 3 rfl).1

/-! ## C11: the turn reset -/

section TurnReset

variable {α : Type} [LinearOrderedField α]

/-- C11. From every state `resetBallPosition` sets `ballX = gameWidth/2`,
`ballY = gameHeight - ballSize`, `ballDX = 0`, `ballDY = 0`, `arrowAngle = π/6`
and `arrowDirection = 1`, and leaves the score, `isGameOver`, `isGamePaused` and
`gameLoopActive` (and the pending requests) unchanged. -/
theorem resetBallPosition_effect (E : Env α) (s : State α) :
    (resetBallPosition E s).ballX = E.gameWidth / 2 ∧
    (resetBallPosition E s).ballY = E.gameHeight - ballSize α ∧
    (resetBallPosition E s).ballDX = 0 ∧
    (resetBallPosition E s).ballDY = 0 ∧
    (resetBallPosition E s).arrowAngle = E.pi / 6 ∧
    (resetBallPosition E s).arrowDirection = 1 ∧
    (resetBallPosition E s).player1Score = s.player1Score ∧
    (resetBallPosition E s).isGameOver = s.isGameOver ∧
    (resetBallPosition E s).isGamePaused = s.isGamePaused ∧
    (resetBallPosition E s).gameLoopActive = s.gameLoopActive ∧
    (resetBallPosition E s).pending = s.pending :=
  ⟨rfl, rfl, rfl, rfl, rfl, rfl, rfl, rfl, rfl, rfl, rfl⟩

end TurnReset

/-! ## C12: one step of the aim oscillator -/

section Oscillator

variable {α : Type} [LinearOrderedField α]

/-- C12. For every angle `a` and direction `d` in `{-1, +1}`, `updateArrow` leaves
`arrowAngle = a + d * 0.007`; the new direction is `-d` if and only if
`a + d * 0.007 > 16π/18` or `a + d * 0.007 < π/9`, and it is `d` otherwise; no
other variable changes. -/
theorem updateArrow_step (E : Env α) (s : State α)
    (hd : s.arrowDirection = 1 ∨ s.arrowDirection = -1) :
    (updateArrow E s).arrowAngle = s.arrowAngle + s.arrowDirection * (7 / 1000) ∧
    ((updateArrow E s).arrowDirection = -s.arrowDirection ↔
      (s.arrowAngle + s.arrowDirection * (7 / 1000) > 16 * E.pi / 18 ∨
        s.arrowAngle + s.arrowDirection * (7 / 1000) < E.pi / 9)) ∧
    (¬ (s.arrowAngle + s.arrowDirection * (7 / 1000) > 16 * E.pi / 18 ∨
        s.arrowAngle + s.arrowDirection * (7 / 1000) < E.pi / 9) →
      (updateArrow E s).arrowDirection = s.arrowDirection) ∧
    (updateArrow E s).ballX = s.ballX ∧
    (updateArrow E s).ballY = s.ballY ∧
    (updateArrow E s).ballDX = s.ballDX ∧
    (updateArrow E s).ballDY = s.ballDY ∧
    (updateArrow E s).player1Score = s.player1Score ∧
    (updateArrow E s).isGamePaused = s.isGamePaused ∧
    (updateArrow E s).isGameOver = s.isGameOver ∧
    (updateArrow E s).gameLoopActive = s.gameLoopActive ∧
    (updateArrow E s).pending = s.pending := by
  have hne : s.arrowDirection ≠ -s.arrowDirection := by
    rcases hd with h | h <;> rw [h] <;> norm_num
  by_cases hc : s.arrowAngle + s.arrowDirection * (7 / 1000) > 16 * E.pi / 18 ∨
      s.arrowAngle + s.arrowDirection * (7 / 1000) < E.pi / 9
  · have hu : updateArrow E s =
        { s with
          arrowAngle := s.arrowAngle + s.arrowDirection * (7 / 1000)
          arrowDirection := s.arrowDirection * -1 } := by
      simp only [updateArrow, CONSTANT_ARROW_SPEED, if_pos hc]
    rw [hu]
    refine ⟨rfl, ⟨fun _ => hc, fun _ => by simp⟩, fun h => absurd hc h,
      rfl, rfl, rfl, rfl, rfl, rfl, rfl, rfl, rfl⟩
  · have hu : updateArrow E s =
        { s with arrowAngle := s.arrowAngle + s.arrowDirection * (7 / 1000) } := by
      simp only [updateArrow, CONSTANT_ARROW_SPEED, if_neg hc]
    rw [hu]
    refine ⟨rfl, ⟨fun h => absurd h hne, fun h => absurd h hc⟩, fun _ => rfl,
      rfl, rfl, rfl, rfl, rfl, rfl, rfl, rfl, rfl⟩

end Oscillator

/-- C12 (witness). The first step from the initial state of `ratEnv`: the angle
grows by 0.007 and the direction stays `+1`. -/
theorem updateArrow_step_witness :
    (updateArrow ratEnv (initial ratEnv)).arrowAngle =
      (initial ratEnv).arrowAngle + (initial ratEnv).arrowDirection * (7 / 1000) :=
  (updateArrow_step ratEnv (initial ratEnv) (Or.inl rfl)).1

/-! ## C13: only a launch makes the velocity nonzero -/

section Velocity

variable {α : Type} [LinearOrderedField α]

theorem updateArrow_velocity (E : Env α) (s : State α) :
    (updateArrow E s).ballDX = s.ballDX ∧ (updateArrow E s).ballDY = s.ballDY := by
  simp only [updateArrow]
  split_ifs <;> exact ⟨rfl, rfl⟩

/-- C13. In a state with `ballDX = 0` and `ballDY = 0`, every event that is not a
launch (a tick, whatever the pause and game-over flags are, a key other than
`ArrowUp`, `togglePause`, `resetGame`) gives a state that still has `ballDX = 0`
and `ballDY = 0`. -/
theorem idle_preserved (E : Env α) (s : State α) (e : Event) (hi : idle s)
    (h1 : e ≠ Event.click) (h2 : e ≠ Event.touchstart) (h3 : e ≠ Event.keydown "ArrowUp") :
    (step E s e).ballDX = 0 ∧ (step E s e).ballDY = 0 := by
  have hi2 : s.ballDX = 0 ∧ s.ballDY = 0 := hi
  cases e with
  | click => exact absurd rfl h1
  | touchstart => exact absurd rfl h2
  | keydown key =>
    have hk : ¬ key = "ArrowUp" := fun h => h3 (by rw [h])
    simp only [step, keydown, if_neg hk]
    exact hi2
  | togglePause =>
    simp only [step, togglePause]
    split_ifs <;> exact hi2
  | resetGame => exact ⟨rfl, rfl⟩
  | tick =>
    simp only [step, tick, gameLoop]
    split_ifs with hr
    · have hv := updateArrow_velocity E { s with pending := s.pending - 1 }
      exact ⟨hv.1.trans hi2.1, hv.2.trans hi2.2⟩
    · exact hi2

/-! ## C14: the physics step away from the top and bottom boundaries -/

/-- C14. For an in-flight state whose new position crosses neither the top
(`ballY + ballDY - ballSize/2 ≥ 0`) nor the bottom
(`ballY + ballDY + ballSize/2 ≤ gameHeight`), `moveBall` gives
`ballX + ballDX` and `ballY + ballDY` as the new position, with no correction,
negates `ballDX` exactly when the new `ballX + ballSize/2 > gameWidth` or
`ballX - ballSize/2 < 0`, keeps `ballDY`, and changes nothing else. -/
theorem moveBall_no_exit (E : Env α) (s : State α) (_hf : ¬ idle s)
    (htop : 0 ≤ s.ballY + s.ballDY - ballSize α / 2)
    (hbot : s.ballY + s.ballDY + ballSize α / 2 ≤ E.gameHeight) :
    (moveBall E s).ballX = s.ballX + s.ballDX ∧
    (moveBall E s).ballY = s.ballY + s.ballDY ∧
    (moveBall E s).ballDX =
      (if s.ballX + s.ballDX + ballSize α / 2 > E.gameWidth ∨
          s.ballX + s.ballDX - ballSize α / 2 < 0 then -s.ballDX else s.ballDX) ∧
    (moveBall E s).ballDY = s.ballDY ∧
    (moveBall E s).arrowAngle = s.arrowAngle ∧
    (moveBall E s).arrowDirection = s.arrowDirection ∧
    (moveBall E s).player1Score = s.player1Score ∧
    (moveBall E s).isGamePaused = s.isGamePaused ∧
    (moveBall E s).isGameOver = s.isGameOver ∧
    (moveBall E s).gameLoopActive = s.gameLoopActive ∧
    (moveBall E s).pending = s.pending := by
  have h1 : ¬ (s.ballY + s.ballDY - ballSize α / 2 < 0) := not_lt.mpr htop
  have h2 : ¬ (s.ballY + s.ballDY + ballSize α / 2 > E.gameHeight) := not_lt.mpr hbot
  simp only [moveBall]
  split_ifs <;> exact ⟨rfl, rfl, rfl, rfl, rfl, rfl, rfl, rfl, rfl, rfl, rfl⟩

end Velocity

/-- C13 (witness). A tick at the initial state of `ratEnv` leaves the ball idle. -/
theorem idle_preserved_witness :
    (step ratEnv (initial ratEnv) Event.tick).ballDX = 0 ∧
    (step ratEnv (initial ratEnv) Event.tick).ballDY = 0 :=
  idle_preserved ratEnv (initial ratEnv) Event.tick ⟨rfl, rfl⟩ (by decide) (by decide)
    (by decide)

/-- C14 (witness). A ball in mid-canvas moving up and to the right: one physics
step moves it by its velocity. -/
theorem moveBall_no_exit_witness :
    (moveBall ratEnv (ratState 200 300 (9 / 5) (-12 / 5) 0)).ballX = 200 + 9 / 5 ∧
    (moveBall ratEnv (ratState 200 300 (9 / 5) (-12 / 5) 0)).ballY = 300 + -12 / 5 := by
  have h := moveBall_no_exit ratEnv (ratState 200 300 (9 / 5) (-12 / 5) 0)
    (by simp [idle, ratState]) (by norm_num [ratState, ballSize])
    (by norm_num [ratState, ballSize, ratEnv])
  exact ⟨h.1, h.2.1⟩

/-! ## C15: how many invocations of `gameLoop` are pending -/

/-- C15 (the code at the failing input). At program start on the 400 by 600
canvas one invocation of `gameLoop` is pending. A click on the canvas while the
ball is idle requests a second one, and the tick that follows leaves two pending
again; `resetGame` at program start, and `togglePause` twice, also leave two. -/
theorem launch_adds_second_pending :
    (initial ratEnv).pending = 1 ∧
    (run ratEnv (initial ratEnv) [Event.click]).pending = 2 ∧
    (run ratEnv (initial ratEnv) [Event.click, Event.tick]).pending = 2 ∧
    (run ratEnv (initial ratEnv) [Event.resetGame]).pending = 2 ∧
    (run ratEnv (initial ratEnv) [Event.togglePause, Event.togglePause]).pending = 2 := by
  refine ⟨rfl, ?_, ?_, rfl, ?_⟩
  · simp [run, step, click, initial, requestAnimationFrame]
  · norm_num [run, step, click, tick, gameLoop, moveBall, initial, requestAnimationFrame,
      ratEnv, ballSize, CONSTANT_BALL_SPEED]
  · simp [run, step, togglePause, initial, requestAnimationFrame]

/-! ## C16: a launch while the game is paused -/

/-- C16 (counterexample). On a 400 by 600 canvas with the real `π`, `cos` and
`sin`, pausing at program start gives a paused, idle state that is not game over
and has the loop flag set. A click there is accepted, but the invocation of
`gameLoop` that follows leaves the ball where it was. -/
theorem launch_while_paused_does_not_move :
    (togglePause (initial (Env.mk 400 600 Real.pi Real.cos Real.sin))).isGamePaused = true ∧
    (togglePause (initial (Env.mk 400 600 Real.pi Real.cos Real.sin))).isGameOver = false ∧
    (togglePause (initial (Env.mk 400 600 Real.pi Real.cos Real.sin))).gameLoopActive = true ∧
    idle (togglePause (initial (Env.mk 400 600 Real.pi Real.cos Real.sin))) ∧
    (tick (Env.mk 400 600 Real.pi Real.cos Real.sin)
      (click (Env.mk 400 600 Real.pi Real.cos Real.sin)
        (togglePause (initial (Env.mk 400 600 Real.pi Real.cos Real.sin))))).ballX =
      (togglePause (initial (Env.mk 400 600 Real.pi Real.cos Real.sin))).ballX ∧
    (tick (Env.mk 400 600 Real.pi Real.cos Real.sin)
      (click (Env.mk 400 600 Real.pi Real.cos Real.sin)
        (togglePause (initial (Env.mk 400 600 Real.pi Real.cos Real.sin))))).ballY =
      (togglePause (initial (Env.mk 400 600 Real.pi Real.cos Real.sin))).ballY := by
  have hs : togglePause (initial (Env.mk 400 600 Real.pi Real.cos Real.sin)) =
      { initial (Env.mk 400 600 Real.pi Real.cos Real.sin) with isGamePaused := true } := by
    simp [togglePause, initial]
  rw [hs]
  refine ⟨rfl, rfl, rfl, ⟨rfl, rfl⟩, ?_, ?_⟩
  · simp [tick, click, gameLoop, initial, requestAnimationFrame]
  · simp [tick, click, gameLoop, initial, requestAnimationFrame]

/-- With the real `cos` and `sin` the launch velocity is never `(0, 0)`. -/
theorem launch_velocity_ne_zero (a : ℝ) : ¬ (3 * Real.cos a = 0 ∧ -3 * Real.sin a = 0) := by
  rintro ⟨hc, hs⟩
  have h1 : Real.cos a = 0 := by linarith
  have h2 : Real.sin a = 0 := by linarith
  have h3 := Real.sin_sq_add_cos_sq a
  rw [h1, h2] at h3
  norm_num at h3

/-- C16 (amended). In a state with `isGamePaused = true`, `isGameOver = false`,
`gameLoopActive = true` and the ball idle, each launch handler is accepted: the
velocity becomes nonzero and one more invocation of `gameLoop` is requested. The
next invocation of `gameLoop` changes no game variable (the game is still paused
and the ball is where it was) and requests nothing. -/
theorem launch_while_paused (E : Env ℝ) (hM : RealMath E) (s : State ℝ)
    (hp : s.isGamePaused = true) (_hg : s.isGameOver = false)
    (_ha : s.gameLoopActive = true) (hi : idle s) :
    ∀ t ∈ [keydown E "ArrowUp" s, click E s, touchstart E s],
      ¬ (t.ballDX = 0 ∧ t.ballDY = 0) ∧
      t.pending = s.pending + 1 ∧
      (tick E t).toGame = t.toGame ∧
      (tick E t).ballX = s.ballX ∧
      (tick E t).ballY = s.ballY ∧
      (tick E t).isGamePaused = true ∧
      (tick E t).pending = s.pending := by
  have hi2 : s.ballDX = 0 ∧ s.ballDY = 0 := hi
  have key : ∀ t : State ℝ,
      t = requestAnimationFrame
        { s with
          ballDX := 3 * Real.cos s.arrowAngle
          ballDY := -3 * Real.sin s.arrowAngle } →
      ¬ (t.ballDX = 0 ∧ t.ballDY = 0) ∧
      t.pending = s.pending + 1 ∧
      (tick E t).toGame = t.toGame ∧
      (tick E t).ballX = s.ballX ∧
      (tick E t).ballY = s.ballY ∧
      (tick E t).isGamePaused = true ∧
      (tick E t).pending = s.pending := by
    intro t ht
    have hpt : t.isGamePaused = true := by rw [ht]; exact hp
    have hrun : ¬ (!t.isGamePaused && !t.isGameOver && t.gameLoopActive) = true := by
      simp [hpt]
    have htick : tick E t = { t with pending := t.pending - 1 } := by
      simp only [tick, gameLoop, if_neg hrun]
    rw [htick, ht]
    exact ⟨launch_velocity_ne_zero s.arrowAngle, rfl, rfl, rfl, rfl, hp, rfl⟩
  intro t ht
  simp only [List.mem_cons, List.mem_singleton, List.not_mem_nil, or_false] at ht
  rcases ht with rfl | rfl | rfl
  · apply key
    simp only [keydown, if_true, if_pos hi2, CONSTANT_BALL_SPEED, hM.2.1, hM.2.2]
  · apply key
    simp only [click, if_pos hi2, CONSTANT_BALL_SPEED, hM.2.1, hM.2.2]
  · apply key
    simp only [touchstart, if_pos hi2, CONSTANT_BALL_SPEED, hM.2.1, hM.2.2]

/-- C16 (witness). A click in the paused initial state of a 400 by 600 canvas:
the velocity is nonzero and the following tick leaves `ballX` at 200. -/
theorem launch_while_paused_witness :
    ¬ ((click (Env.mk 400 600 Real.pi Real.cos Real.sin)
        { initial (Env.mk 400 600 Real.pi Real.cos Real.sin) with
          isGamePaused := true }).ballDX = 0 ∧
      (click (Env.mk 400 600 Real.pi Real.cos Real.sin)
        { initial (Env.mk 400 600 Real.pi Real.cos Real.sin) with
          isGamePaused := true }).ballDY = 0) ∧
    (tick (Env.mk 400 600 Real.pi Real.cos Real.sin)
      (click (Env.mk 400 600 Real.pi Real.cos Real.sin)
        { initial (Env.mk 400 600 Real.pi Real.cos Real.sin) with
          isGamePaused := true })).ballX = 400 / 2 := by
  have h := launch_while_paused (Env.mk 400 600 Real.pi Real.cos Real.sin) ⟨rfl, rfl, rfl⟩
    { initial (Env.mk 400 600 Real.pi Real.cos Real.sin) with isGamePaused := true }
    rfl rfl rfl ⟨rfl, rfl⟩
    (click (Env.mk 400 600 Real.pi Real.cos Real.sin)
      { initial (Env.mk 400 600 Real.pi Real.cos Real.sin) with isGamePaused := true })
    (by simp)
  exact ⟨h.1, h.2.2.2.1⟩

/-! ## C18: the score and the game-over flag -/

theorem scoreInv_congr {α : Type} {s t : State α} (h1 : t.player1Score = s.player1Score)
    (h2 : t.isGameOver = s.isGameOver) (h : ScoreInv s) : ScoreInv t := by
  unfold ScoreInv at *
  rw [h1, h2]
  exact h

section ScoreFlag

variable {α : Type} [LinearOrderedField α]

theorem scoreInv_updateArrow (E : Env α) (s : State α) (h : ScoreInv s) :
    ScoreInv (updateArrow E s) := by
  simp only [updateArrow]
  split_ifs <;> exact h

/-- The game-over flag after `moveBall`: set exactly when a goal makes the score
5 or more. -/
theorem moveBall_isGameOver (E : Env α) (s : State α) :
    (moveBall E s).isGameOver =
      if s.ballY + s.ballDY - ballSize α / 2 < 0 ∧
          (s.ballX + s.ballDX > goalX E ∧ s.ballX + s.ballDX < goalX E + goalWidth α) ∧
          s.player1Score + 1 ≥ 5 then
        true
      else s.isGameOver := by
  by_cases htop : s.ballY + s.ballDY - ballSize α / 2 < 0
  · by_cases hgoal : s.ballX + s.ballDX > goalX E ∧ s.ballX + s.ballDX < goalX E + goalWidth α
    · by_cases h5 : s.player1Score + 1 ≥ 5
      · rw [if_pos ⟨htop, hgoal, h5⟩]
        simp only [moveBall]
        split_ifs <;> rfl
      · rw [if_neg (fun h => h5 h.2.2)]
        simp only [moveBall]
        split_ifs <;> rfl
    · rw [if_neg (fun h => hgoal h.2.1)]
      simp only [moveBall]
      split_ifs <;> rfl
  · rw [if_neg (fun h => htop h.1)]
    simp only [moveBall]
    split_ifs <;> rfl

theorem scoreInv_moveBall (E : Env α) (s : State α) (hg : s.isGameOver = false)
    (h : ScoreInv s) : ScoreInv (moveBall E s) := by
  obtain ⟨h1, h2⟩ := h
  have h3 : s.player1Score ≠ 5 := by
    intro h5
    rw [h2.mpr h5] at hg
    exact absurd hg (by decide)
  have h4 : s.player1Score ≤ 4 := by omega
  unfold ScoreInv
  rw [moveBall_player1Score, moveBall_isGameOver]
  by_cases hc : s.ballY + s.ballDY - ballSize α / 2 < 0 ∧
      (s.ballX + s.ballDX > goalX E ∧ s.ballX + s.ballDX < goalX E + goalWidth α)
  · rw [if_pos hc]
    by_cases h5 : s.player1Score + 1 ≥ 5
    · rw [if_pos ⟨hc.1, hc.2, h5⟩]
      exact ⟨by omega, fun _ => by omega, fun _ => rfl⟩
    · rw [if_neg (fun h => h5 h.2.2), hg]
      exact ⟨by omega, fun hh => absurd hh (by decide), fun hh => absurd hh (by omega)⟩
  · rw [if_neg hc, if_neg (fun h => hc ⟨h.1, h.2.1⟩)]
    exact ⟨h1, h2⟩

theorem scoreInv_step (E : Env α) (s : State α) (e : Event) (h : ScoreInv s) :
    ScoreInv (step E s e) := by
  cases e with
  | resetGame =>
    simp [ScoreInv, step, resetGame, resetBallPosition, requestAnimationFrame]
  | keydown key =>
    simp only [step, keydown]
    split_ifs <;> exact h
  | click =>
    simp only [step, click]
    split_ifs <;> exact h
  | touchstart =>
    simp only [step, touchstart]
    split_ifs <;> exact h
  | togglePause =>
    simp only [step, togglePause]
    split_ifs <;> exact h
  | tick =>
    by_cases hrun : (!s.isGamePaused && !s.isGameOver && s.gameLoopActive) = true
    · have hg : s.isGameOver = false := ((running_iff s).mp hrun).2.1
      by_cases hidle : s.ballDX = 0 ∧ s.ballDY = 0
      · simp only [step, tick, gameLoop, if_pos hrun, if_pos hidle, requestAnimationFrame]
        exact scoreInv_congr rfl rfl (scoreInv_updateArrow E _ (scoreInv_congr rfl rfl h))
      · simp only [step, tick, gameLoop, if_pos hrun, if_neg hidle, requestAnimationFrame]
        exact scoreInv_congr rfl rfl (scoreInv_moveBall E _ hg (scoreInv_congr rfl rfl h))
    · simp only [step, tick, gameLoop, if_neg hrun]
      exact h

/-- C18. In every state reachable from the initial state by ticks, launch events,
`togglePause` and `resetGame`, `0 ≤ score ≤ 5`, and `isGameOver = true` if and
only if `score = 5`. -/
theorem score_gameOver_agree (E : Env α) (s : State α) (hr : Reachable E s) :
    0 ≤ s.player1Score ∧ s.player1Score ≤ 5 ∧ (s.isGameOver = true ↔ s.player1Score = 5) := by
  obtain ⟨es, rfl⟩ := hr
  have key : ∀ (es : List Event) (t : State α), ScoreInv t → ScoreInv (run E t es) := by
    intro es
    induction es with
    | nil => exact fun t h => h
    | cons e es ih => exact fun t h => ih _ (scoreInv_step E t e h)
  have h0 : ScoreInv (initial E) := by
    simp [ScoreInv, initial]
  have h := key es (initial E) h0
  exact ⟨Nat.zero_le _, h.1, h.2⟩

end ScoreFlag

/-- C18 (witness). On the canvas 20 high, after five launches each followed by a
tick the score is at most 5 and agrees with the game-over flag. -/
theorem score_gameOver_agree_witness :
    (run lowEnv (initial lowEnv)
      [Event.click, Event.tick, Event.click, Event.tick, Event.click, Event.tick,
        Event.click, Event.tick, Event.click, Event.tick]).player1Score ≤ 5 ∧
    ((run lowEnv (initial lowEnv)
      [Event.click, Event.tick, Event.click, Event.tick, Event.click, Event.tick,
        Event.click, Event.tick, Event.click, Event.tick]).isGameOver = true ↔
     (run lowEnv (initial lowEnv)
      [Event.click, Event.tick, Event.click, Event.tick, Event.click, Event.tick,
        Event.click, Event.tick, Event.click, Event.tick]).player1Score = 5) :=
  (score_gameOver_agree lowEnv _ ⟨_, rfl⟩).2

/-! ## Invariants of the flight: direction and height -/

section FlightLemmas

variable {α : Type} [LinearOrderedField α]

theorem flightInv_idle (E : Env α) (t : State α) (hx : t.ballDX = 0) (hy : t.ballDY = 0)
    (hb : t.ballY ≤ E.gameHeight - ballSize α) : FlightInv E t :=
  ⟨Or.inl ⟨hx, hy⟩, hb⟩

theorem flightInv_up (E : Env α) (t : State α) (hd : t.ballDY < 0)
    (hb : t.ballY ≤ E.gameHeight - ballSize α) : FlightInv E t :=
  ⟨Or.inr hd, hb⟩

theorem flightInv_updateArrow (E : Env α) (s : State α) (h : FlightInv E s) :
    FlightInv E (updateArrow E s) := by
  simp only [updateArrow]
  split_ifs <;> exact h

theorem flightInv_moveBall (E : Env α) (s : State α) (hf : ¬ (s.ballDX = 0 ∧ s.ballDY = 0))
    (h : FlightInv E s) : FlightInv E (moveBall E s) := by
  have hdy : s.ballDY < 0 := h.1.resolve_left hf
  have hy : s.ballY + s.ballDY ≤ E.gameHeight - ballSize α := by linarith [h.2]
  unfold moveBall
  dsimp only
  split_ifs <;>
    first
    | exact flightInv_idle E _ rfl rfl (le_refl _)
    | exact flightInv_up E _ hdy hy

/-- The velocity after a physics step that crosses neither the top nor the
bottom boundary. -/
theorem moveBall_velocity_inside (E : Env α) (s : State α)
    (htop : 0 ≤ s.ballY + s.ballDY - ballSize α / 2)
    (hbot : s.ballY + s.ballDY + ballSize α / 2 ≤ E.gameHeight) :
    (moveBall E s).ballDX =
      (if s.ballX + s.ballDX + ballSize α / 2 > E.gameWidth ∨
          s.ballX + s.ballDX - ballSize α / 2 < 0 then -s.ballDX else s.ballDX) ∧
    (moveBall E s).ballDY = s.ballDY := by
  have h1 : ¬ (s.ballY + s.ballDY - ballSize α / 2 < 0) := not_lt.mpr htop
  have h2 : ¬ (s.ballY + s.ballDY + ballSize α / 2 > E.gameHeight) := not_lt.mpr hbot
  simp only [moveBall]
  split_ifs <;> exact ⟨rfl, rfl⟩

end FlightLemmas

/-- The sweep of the arrow stays strictly between 0 and `π`, where the sine is
positive. -/
theorem sin_pos_of_aimInv (E : Env ℝ) (hM : RealMath E) (s : State ℝ) (h : AimInv E s) :
    0 < Real.sin s.arrowAngle := by
  obtain ⟨h1, h2, -⟩ := h
  simp only [CONSTANT_ARROW_SPEED, hM.1] at h1 h2
  have hpi := Real.pi_gt_three
  apply Real.sin_pos_of_pos_of_lt_pi <;> linarith

theorem flightInv_click (E : Env ℝ) (hM : RealMath E) (s : State ℝ) (ha : AimInv E s)
    (h : FlightInv E s) : FlightInv E (click E s) := by
  have hsin := sin_pos_of_aimInv E hM s ha
  unfold click
  split_ifs with hi
  · refine flightInv_up E _ ?_ h.2
    show -CONSTANT_BALL_SPEED ℝ * E.sin s.arrowAngle < 0
    rw [hM.2.2, CONSTANT_BALL_SPEED]
    linarith
  · exact h

theorem keydown_eq_click {α : Type} [LinearOrderedField α] (E : Env α) (key : String)
    (s : State α) : keydown E key s = if key = "ArrowUp" then click E s else s := rfl

/-- The aim and flight invariants are kept by every event. -/
theorem realInv_step (E : Env ℝ) (hM : RealMath E) (s : State ℝ) (e : Event)
    (h : AimInv E s ∧ FlightInv E s) :
    AimInv E (step E s e) ∧ FlightInv E (step E s e) := by
  have hpi : 0 ≤ E.pi := by
    rw [hM.1]
    exact Real.pi_pos.le
  refine ⟨aimInv_step E hpi s e h.1, ?_⟩
  obtain ⟨ha, hf⟩ := h
  cases e with
  | click => exact flightInv_click E hM s ha hf
  | touchstart => exact flightInv_click E hM s ha hf
  | keydown key =>
    simp only [step, keydown_eq_click]
    split_ifs
    · exact flightInv_click E hM s ha hf
    · exact hf
  | togglePause =>
    simp only [step, togglePause]
    split_ifs <;> exact hf
  | resetGame => exact flightInv_idle E _ rfl rfl (le_refl _)
  | tick =>
    by_cases hrun : (!s.isGamePaused && !s.isGameOver && s.gameLoopActive) = true
    · by_cases hidle : s.ballDX = 0 ∧ s.ballDY = 0
      · simp only [step, tick, gameLoop, if_pos hrun, if_pos hidle, requestAnimationFrame]
        exact flightInv_updateArrow E _ hf
      · simp only [step, tick, gameLoop, if_pos hrun, if_neg hidle, requestAnimationFrame]
        exact flightInv_moveBall E _ hidle hf
    · simp only [step, tick, gameLoop, if_neg hrun]
      exact hf

theorem realInv_of_reachable (E : Env ℝ) (hM : RealMath E) (s : State ℝ)
    (hr : Reachable E s) : AimInv E s ∧ FlightInv E s := by
  obtain ⟨es, rfl⟩ := hr
  have hpi : 0 ≤ E.pi := by
    rw [hM.1]
    exact Real.pi_pos.le
  have key : ∀ (es : List Event) (t : State ℝ), AimInv E t ∧ FlightInv E t →
      AimInv E (run E t es) ∧ FlightInv E (run E t es) := by
    intro es
    induction es with
    | nil => exact fun t h => h
    | cons e es ih => exact fun t h => ih _ (realInv_step E hM t e h)
  exact key es (initial E) ⟨aimInv_initial E hpi, flightInv_idle E _ rfl rfl (le_refl _)⟩

/-! ## C17: the floor exit -/

/-- C17. With the real `π`, `cos` and `sin`, on every canvas size, in every state
reachable from the initial state in which the ball is in flight: `ballDY < 0`,
`ballY ≤ gameHeight - ballSize`, the bottom test of `moveBall`,
`ballY + ballSize/2 > gameHeight` on the moved ball, is false, and if `moveBall`
ends the flight (leaves the ball idle) then the moved ball crossed the top
boundary. -/
theorem floor_exit_unreachable (E : Env ℝ) (hM : RealMath E) (s : State ℝ)
    (hr : Reachable E s) (hf : ¬ idle s) :
    s.ballDY < 0 ∧
    s.ballY ≤ E.gameHeight - ballSize ℝ ∧
    ¬ (s.ballY + s.ballDY + ballSize ℝ / 2 > E.gameHeight) ∧
    (idle (moveBall E s) → s.ballY + s.ballDY - ballSize ℝ / 2 < 0) := by
  obtain ⟨-, hfl⟩ := realInv_of_reachable E hM s hr
  have hdy : s.ballDY < 0 := hfl.1.resolve_left hf
  have hy : s.ballY ≤ E.gameHeight - ballSize ℝ := hfl.2
  have hb : s.ballY + s.ballDY + ballSize ℝ / 2 ≤ E.gameHeight := by
    simp only [ballSize] at hy ⊢
    linarith
  refine ⟨hdy, hy, not_lt.mpr hb, fun hi => ?_⟩
  by_contra htop
  have hm := moveBall_velocity_inside E s (not_lt.mp htop) hb
  have h0 : (moveBall E s).ballDY = 0 := hi.2
  rw [hm.2] at h0
  linarith

/-- C17 (witness). A click at program start on a 400 by 600 canvas puts the ball
in flight with `ballDY < 0`. -/
theorem floor_exit_unreachable_witness :
    (run (Env.mk 400 600 Real.pi Real.cos Real.sin)
      (initial (Env.mk 400 600 Real.pi Real.cos Real.sin)) [Event.click]).ballDY < 0 := by
  have hd : (run (Env.mk 400 600 Real.pi Real.cos Real.sin)
      (initial (Env.mk 400 600 Real.pi Real.cos Real.sin)) [Event.click]).ballDY = -(3 / 2) := by
    simp [run, step, click, initial, requestAnimationFrame, CONSTANT_BALL_SPEED]
    ring
  exact (floor_exit_unreachable (Env.mk 400 600 Real.pi Real.cos Real.sin) ⟨rfl, rfl, rfl⟩ _
    ⟨[Event.click], rfl⟩ (fun hi => by
      have h0 := hi.2
      rw [hd] at h0
      norm_num at h0)).1

/-! ## C19: the overshoot of the aim angle -/

/-- C19. With the real `π`, in every state reachable from the initial state,
`π/9 - 0.007 ≤ arrowAngle ≤ 16π/18 + 0.007`; when the angle is above `16π/18` the
direction is `-1` and when it is below `π/9` the direction is `+1`; and in
either case the next `updateArrow` brings the angle back into `[π/9, 16π/18]`
and leaves the direction as it is. -/
theorem aim_overshoot_one_step (E : Env ℝ) (hM : RealMath E) (s : State ℝ)
    (hr : Reachable E s) :
    Real.pi / 9 - 7 / 1000 ≤ s.arrowAngle ∧
    s.arrowAngle ≤ 16 * Real.pi / 18 + 7 / 1000 ∧
    (16 * Real.pi / 18 < s.arrowAngle → s.arrowDirection = -1) ∧
    (s.arrowAngle < Real.pi / 9 → s.arrowDirection = 1) ∧
    (s.arrowAngle < Real.pi / 9 ∨ 16 * Real.pi / 18 < s.arrowAngle →
      Real.pi / 9 ≤ (updateArrow E s).arrowAngle ∧
      (updateArrow E s).arrowAngle ≤ 16 * Real.pi / 18 ∧
      (updateArrow E s).arrowDirection = s.arrowDirection) := by
  obtain ⟨h1, h2, -, h4, h5⟩ := (realInv_of_reachable E hM s hr).1
  simp only [CONSTANT_ARROW_SPEED, hM.1] at h1 h2 h4 h5
  have hpi := Real.pi_gt_three
  refine ⟨h1, h2, h4, h5, fun hout => ?_⟩
  rcases hout with hlo | hhi
  · have hd := h5 hlo
    have hc : ¬ (s.arrowAngle + s.arrowDirection * (7 / 1000) > 16 * E.pi / 18 ∨
        s.arrowAngle + s.arrowDirection * (7 / 1000) < E.pi / 9) := by
      rw [hd, hM.1]
      push_neg
      constructor <;> linarith
    have hu : updateArrow E s =
        { s with arrowAngle := s.arrowAngle + s.arrowDirection * (7 / 1000) } := by
      simp only [updateArrow, CONSTANT_ARROW_SPEED, if_neg hc]
    rw [hu]
    refine ⟨?_, ?_, rfl⟩
    · show Real.pi / 9 ≤ s.arrowAngle + s.arrowDirection * (7 / 1000)
      rw [hd]
      linarith
    · show s.arrowAngle + s.arrowDirection * (7 / 1000) ≤ 16 * Real.pi / 18
      rw [hd]
      linarith
  · have hd := h4 hhi
    have hc : ¬ (s.arrowAngle + s.arrowDirection * (7 / 1000) > 16 * E.pi / 18 ∨
        s.arrowAngle + s.arrowDirection * (7 / 1000) < E.pi / 9) := by
      rw [hd, hM.1]
      push_neg
      constructor <;> linarith
    have hu : updateArrow E s =
        { s with arrowAngle := s.arrowAngle + s.arrowDirection * (7 / 1000) } := by
      simp only [updateArrow, CONSTANT_ARROW_SPEED, if_neg hc]
    rw [hu]
    refine ⟨?_, ?_, rfl⟩
    · show Real.pi / 9 ≤ s.arrowAngle + s.arrowDirection * (7 / 1000)
      rw [hd]
      linarith
    · show s.arrowAngle + s.arrowDirection * (7 / 1000) ≤ 16 * Real.pi / 18
      rw [hd]
      linarith

/-- C19 (witness). After 325 ticks from program start on a 400 by 600 canvas the
angle is one step past the upper bound; it is within one step of it. -/
theorem aim_overshoot_one_step_witness :
    (run (Env.mk 400 600 Real.pi Real.cos Real.sin)
      (initial (Env.mk 400 600 Real.pi Real.cos Real.sin))
      (List.replicate 325 Event.tick)).arrowAngle ≤ 16 * Real.pi / 18 + 7 / 1000 :=
  (aim_overshoot_one_step (Env.mk 400 600 Real.pi Real.cos Real.sin) ⟨rfl, rfl, rfl⟩ _
    ⟨List.replicate 325 Event.tick, rfl⟩).2.1

/-! ## C20: the speed of the ball -/

section SpeedLemmas

variable {α : Type} [LinearOrderedField α]

/-- A physics step that leaves the ball in flight keeps the squared length of
the velocity: it can only negate `ballDX`. -/
theorem moveBall_speed_sq (E : Env α) (s : State α)
    (h : ¬ ((moveBall E s).ballDX = 0 ∧ (moveBall E s).ballDY = 0)) :
    (moveBall E s).ballDX ^ 2 + (moveBall E s).ballDY ^ 2 = s.ballDX ^ 2 + s.ballDY ^ 2 := by
  by_cases htop : s.ballY + s.ballDY - ballSize α / 2 < 0
  · exfalso
    apply h
    simp only [moveBall]
    split_ifs <;> exact ⟨rfl, rfl⟩
  · by_cases hbot : s.ballY + s.ballDY + ballSize α / 2 > E.gameHeight
    · exfalso
      apply h
      simp only [moveBall]
      split_ifs <;> exact ⟨rfl, rfl⟩
    · have hm := moveBall_velocity_inside E s (not_lt.mp htop) (not_lt.mp hbot)
      rw [hm.1, hm.2]
      split_ifs
      · rw [neg_sq]
      · rfl

end SpeedLemmas

/-- An approximate cosine and sine give a launch velocity that is not zero and
has squared length within `10⁻⁹` of 9. -/
theorem launch_speed_near (E : Env ℝ) (hM : ApproxTrig E) (a : ℝ) :
    |(3 * E.cos a) ^ 2 + (-3 * E.sin a) ^ 2 - 9| ≤ 1 / 10 ^ 9 ∧
    ¬ (3 * E.cos a = 0 ∧ -3 * E.sin a = 0) := by
  have h := Real.sin_sq_add_cos_sq a
  obtain ⟨hc1, hc2⟩ := abs_le.mp (hM.1 a)
  obtain ⟨hs1, hs2⟩ := abs_le.mp (hM.2 a)
  have hcb : -1 ≤ Real.cos a ∧ Real.cos a ≤ 1 := ⟨Real.neg_one_le_cos a, Real.cos_le_one a⟩
  have hsb : -1 ≤ Real.sin a ∧ Real.sin a ≤ 1 := ⟨Real.neg_one_le_sin a, Real.sin_le_one a⟩
  have key : (3 * E.cos a) ^ 2 + (-3 * E.sin a) ^ 2 - 9 =
      9 * (2 * Real.cos a * (E.cos a - Real.cos a) + 2 * Real.sin a * (E.sin a - Real.sin a) +
        (E.cos a - Real.cos a) ^ 2 + (E.sin a - Real.sin a) ^ 2) := by
    have : E.cos a ^ 2 + E.sin a ^ 2 - 1 =
        2 * Real.cos a * (E.cos a - Real.cos a) + 2 * Real.sin a * (E.sin a - Real.sin a) +
          (E.cos a - Real.cos a) ^ 2 + (E.sin a - Real.sin a) ^ 2 := by
      rw [← h]
      ring
    linear_combination 9 * this
  constructor
  · rw [key, abs_le]
    constructor
    · nlinarith [mul_nonneg (sub_nonneg.mpr hcb.2) (sub_nonneg.mpr hc2),
        mul_nonneg (sub_nonneg.mpr hcb.1) (sub_nonneg.mpr hc1),
        mul_nonneg (sub_nonneg.mpr hsb.2) (sub_nonneg.mpr hs2),
        mul_nonneg (sub_nonneg.mpr hsb.1) (sub_nonneg.mpr hs1),
        mul_nonneg (sub_nonneg.mpr hcb.2) (sub_nonneg.mpr hc1),
        mul_nonneg (sub_nonneg.mpr hcb.1) (sub_nonneg.mpr hc2),
        mul_nonneg (sub_nonneg.mpr hsb.2) (sub_nonneg.mpr hs1),
        mul_nonneg (sub_nonneg.mpr hsb.1) (sub_nonneg.mpr hs2),
        sq_nonneg (E.cos a - Real.cos a), sq_nonneg (E.sin a - Real.sin a)]
    · nlinarith [mul_nonneg (sub_nonneg.mpr hcb.2) (sub_nonneg.mpr hc2),
        mul_nonneg (sub_nonneg.mpr hcb.1) (sub_nonneg.mpr hc1),
        mul_nonneg (sub_nonneg.mpr hsb.2) (sub_nonneg.mpr hs2),
        mul_nonneg (sub_nonneg.mpr hsb.1) (sub_nonneg.mpr hs1),
        mul_nonneg (sub_nonneg.mpr hcb.2) (sub_nonneg.mpr hc1),
        mul_nonneg (sub_nonneg.mpr hcb.1) (sub_nonneg.mpr hc2),
        mul_nonneg (sub_nonneg.mpr hsb.2) (sub_nonneg.mpr hs1),
        mul_nonneg (sub_nonneg.mpr hsb.1) (sub_nonneg.mpr hs2),
        mul_nonneg (sub_nonneg.mpr hc2) (sub_nonneg.mpr hc1),
        mul_nonneg (sub_nonneg.mpr hs2) (sub_nonneg.mpr hs1)]
  · rintro ⟨h1, h2⟩
    have e1 : E.cos a = 0 := by linarith
    have e2 : E.sin a = 0 := by linarith
    rw [e1] at hc1 hc2
    rw [e2] at hs1 hs2
    nlinarith

theorem click_speed_near (E : Env ℝ) (hM : ApproxTrig E) (s : State ℝ)
    (hi : s.ballDX = 0 ∧ s.ballDY = 0) :
    |(click E s).ballDX ^ 2 + (click E s).ballDY ^ 2 - 9| ≤ 1 / 10 ^ 9 ∧
    ¬ ((click E s).ballDX = 0 ∧ (click E s).ballDY = 0) := by
  simp only [click, if_pos hi, requestAnimationFrame, CONSTANT_BALL_SPEED]
  exact launch_speed_near E hM s.arrowAngle

theorem speedNear_click (E : Env ℝ) (hM : ApproxTrig E) (s : State ℝ) (h : SpeedNear s) :
    SpeedNear (click E s) := by
  by_cases hi : s.ballDX = 0 ∧ s.ballDY = 0
  · exact Or.inr (click_speed_near E hM s hi).1
  · simp only [click, if_neg hi]
    exact h

theorem speedNear_updateArrow (E : Env ℝ) (s : State ℝ) (h : SpeedNear s) :
    SpeedNear (updateArrow E s) := by
  simp only [updateArrow]
  split_ifs <;> exact h

theorem speedNear_moveBall (E : Env ℝ) (s : State ℝ) (h : SpeedNear s)
    (hf : ¬ (s.ballDX = 0 ∧ s.ballDY = 0)) : SpeedNear (moveBall E s) := by
  by_cases hi : (moveBall E s).ballDX = 0 ∧ (moveBall E s).ballDY = 0
  · exact Or.inl hi
  · refine Or.inr ?_
    rw [moveBall_speed_sq E s hi]
    exact h.resolve_left hf

theorem speedNear_step (E : Env ℝ) (hM : ApproxTrig E) (s : State ℝ) (e : Event)
    (h : SpeedNear s) : SpeedNear (step E s e) := by
  cases e with
  | click => exact speedNear_click E hM s h
  | touchstart => exact speedNear_click E hM s h
  | keydown key =>
    simp only [step, keydown_eq_click]
    split_ifs
    · exact speedNear_click E hM s h
    · exact h
  | togglePause =>
    simp only [step, togglePause]
    split_ifs <;> exact h
  | resetGame => exact Or.inl ⟨rfl, rfl⟩
  | tick =>
    by_cases hrun : (!s.isGamePaused && !s.isGameOver && s.gameLoopActive) = true
    · by_cases hidle : s.ballDX = 0 ∧ s.ballDY = 0
      · simp only [step, tick, gameLoop, if_pos hrun, if_pos hidle, requestAnimationFrame]
        exact speedNear_updateArrow E _ h
      · simp only [step, tick, gameLoop, if_pos hrun, if_neg hidle, requestAnimationFrame]
        exact speedNear_moveBall E _ h hidle
    · simp only [step, tick, gameLoop, if_neg hrun]
      exact h

/-- C20 (counterexample). On a double platform `Math.cos` and `Math.sin` return
`0.8660254037844387` and `0.49999999999999994` at the initial angle. A click at
program start is a launch from an idle state, and the velocity it assigns,
three times these values, does not have `ballDX² + ballDY² = 9`. The products
are taken exactly here; rounded to doubles they are `2.598076211353316` and
`-1.4999999999999998`, whose squared length is not 9 either. -/
theorem launch_speed_not_exact :
    idle (initial dblEnv) ∧
    (click dblEnv (initial dblEnv)).ballDX = 3 * (7800463371553963 / 9007199254740992) ∧
    (click dblEnv (initial dblEnv)).ballDY = -3 * (9007199254740991 / 18014398509481984) ∧
    ¬ (click dblEnv (initial dblEnv)).ballDX ^ 2 +
        (click dblEnv (initial dblEnv)).ballDY ^ 2 = 9 := by
  have hx : (click dblEnv (initial dblEnv)).ballDX =
      3 * (7800463371553963 / 9007199254740992) := by
    simp [click, initial, dblEnv, requestAnimationFrame, CONSTANT_BALL_SPEED]
  have hy : (click dblEnv (initial dblEnv)).ballDY =
      -3 * (9007199254740991 / 18014398509481984) := by
    simp [click, initial, dblEnv, requestAnimationFrame, CONSTANT_BALL_SPEED]
  refine ⟨⟨rfl, rfl⟩, hx, hy, ?_⟩
  rw [hx, hy]
  norm_num

/-- C20 (amended). When `Math.cos` and `Math.sin` are within `10⁻¹²` of the real
cosine and sine: a launch from an idle state, at any `arrowAngle`, gives a
velocity with `ballDX² + ballDY²` within `10⁻⁹` of 9 and not `(0, 0)`, so the
ball is in flight afterwards; a physics step that does not end the flight (the
ball is not idle afterwards, which is the case for a ball in flight when neither
the top nor the bottom is crossed) leaves `ballDX² + ballDY²` exactly as it
was; and in every reachable state the velocity is `(0, 0)` or has
`ballDX² + ballDY²` within `10⁻⁹` of 9. -/
theorem speed_nearly_conserved (E : Env ℝ) (hM : ApproxTrig E) :
    (∀ s : State ℝ, idle s → ∀ t ∈ [keydown E "ArrowUp" s, click E s, touchstart E s],
      |t.ballDX ^ 2 + t.ballDY ^ 2 - 9| ≤ 1 / 10 ^ 9 ∧ ¬ idle t) ∧
    (∀ s : State ℝ, ¬ idle (moveBall E s) →
      (moveBall E s).ballDX ^ 2 + (moveBall E s).ballDY ^ 2 =
        s.ballDX ^ 2 + s.ballDY ^ 2) ∧
    (∀ s : State ℝ, ¬ idle s →
      0 ≤ s.ballY + s.ballDY - ballSize ℝ / 2 →
      s.ballY + s.ballDY + ballSize ℝ / 2 ≤ E.gameHeight →
      ¬ idle (moveBall E s) ∧
      (moveBall E s).ballDX ^ 2 + (moveBall E s).ballDY ^ 2 =
        s.ballDX ^ 2 + s.ballDY ^ 2) ∧
    (∀ s : State ℝ, Reachable E s →
      idle s ∨ |s.ballDX ^ 2 + s.ballDY ^ 2 - 9| ≤ 1 / 10 ^ 9) := by
  refine ⟨fun s hi t ht => ?_, fun s hni => moveBall_speed_sq E s hni,
    fun s hf htop hbot => ?_, fun s hr => ?_⟩
  · simp only [List.mem_cons, List.mem_singleton, List.not_mem_nil, or_false] at ht
    rcases ht with rfl | rfl | rfl
    · rw [keydown_eq_click, if_pos rfl]
      exact click_speed_near E hM s hi
    · exact click_speed_near E hM s hi
    · exact click_speed_near E hM s hi
  · have hm := moveBall_velocity_inside E s htop hbot
    have hni : ¬ ((moveBall E s).ballDX = 0 ∧ (moveBall E s).ballDY = 0) := by
      rintro ⟨hx, hy⟩
      rw [hm.2] at hy
      rw [hm.1] at hx
      apply hf
      refine ⟨?_, hy⟩
      split_ifs at hx
      · exact neg_eq_zero.mp hx
      · exact hx
    exact ⟨hni, moveBall_speed_sq E s hni⟩
  · obtain ⟨es, rfl⟩ := hr
    have key : ∀ (es : List Event) (t : State ℝ), SpeedNear t → SpeedNear (run E t es) := by
      intro es
      induction es with
      | nil => exact fun t h => h
      | cons e es ih => exact fun t h => ih _ (speedNear_step E hM t e h)
    exact key es (initial E) (Or.inl ⟨rfl, rfl⟩)

/-- C20 (witness). A click at program start on a 400 by 600 canvas where `Math.PI`
is the double nearest `π` and `Math.cos`, `Math.sin` are off by `10⁻¹⁶`: the
squared length of the velocity is within `10⁻⁹` of 9. -/
theorem speed_nearly_conserved_witness :
    |(click (Env.mk 400 600 (884279719003555 / 281474976710656)
        (fun x => Real.cos x + 1 / 10 ^ 16) (fun x => Real.sin x - 1 / 10 ^ 16))
      (initial (Env.mk 400 600 (884279719003555 / 281474976710656)
        (fun x => Real.cos x + 1 / 10 ^ 16)
        (fun x => Real.sin x - 1 / 10 ^ 16)))).ballDX ^ 2 +
    (click (Env.mk 400 600 (884279719003555 / 281474976710656)
        (fun x => Real.cos x + 1 / 10 ^ 16) (fun x => Real.sin x - 1 / 10 ^ 16))
      (initial (Env.mk 400 600 (884279719003555 / 281474976710656)
        (fun x => Real.cos x + 1 / 10 ^ 16)
        (fun x => Real.sin x - 1 / 10 ^ 16)))).ballDY ^ 2 - 9| ≤ 1 / 10 ^ 9 :=
  ((speed_nearly_conserved
    (Env.mk 400 600 (884279719003555 / 281474976710656)
      (fun x => Real.cos x + 1 / 10 ^ 16) (fun x => Real.sin x - 1 / 10 ^ 16))
    (approxTrig_offset 400 600 (884279719003555 / 281474976710656))).1
    (initial (Env.mk 400 600 (884279719003555 / 281474976710656)
      (fun x => Real.cos x + 1 / 10 ^ 16) (fun x => Real.sin x - 1 / 10 ^ 16)))
    ⟨rfl, rfl⟩
    (click (Env.mk 400 600 (884279719003555 / 281474976710656)
      (fun x => Real.cos x + 1 / 10 ^ 16) (fun x => Real.sin x - 1 / 10 ^ 16))
      (initial (Env.mk 400 600 (884279719003555 / 281474976710656)
        (fun x => Real.cos x + 1 / 10 ^ 16) (fun x => Real.sin x - 1 / 10 ^ 16))))
    (by simp)).1

end ArcBall
